import Mathlib

/-!
Verification of the FraudShield heuristic scoring engine.

We shallowly embed the phishing / fraud scoring core of the repository:

* `PhishingService` : the analyzer suite and aggregator of
  `src/server/storage.ts` (class `PhishingService`, `generateDemoResult`
  and the `analyze*` helpers, plus `levenshteinDistance`);
* `PhishingServiceLegacy` : the near-duplicate, simpler implementation in
  `src/server/services/phishingService.ts` (`src/unnamed/part_009`);
* `FraudService` : the rule engine of
  `src/client/src/pages/LandingPage.tsx`.

Strings are embedded as `List Char` (`Str`); JavaScript string methods
(`includes`, `split`, `endsWith`, `trim`, `toLowerCase` on ASCII) are
reimplemented below with JS semantics.  JavaScript numbers are embedded as
`Nat`: every quantity accumulated by the engine is a non-negative integer
literal, so `Math.round` is the identity and is dropped.  The single call
to `Math.random()` in each no-indicator branch is modelled by an explicit
parameter (`Fin 15` for `Math.floor(Math.random() * 15)`, `Fin 20` for
`Math.floor(Math.random() * 20)`), and the `Math.random() > 0.7` draw of
the legacy grammar check by an explicit `Bool` parameter.
-/

namespace FraudShield

/-- Strings of the embedded program. -/
abbrev Str := List Char

/-- ASCII lower-casing of one character (JS `toLowerCase` on ASCII input). -/
def asciiLower (c : Char) : Char :=
  if 'A' ≤ c ∧ c ≤ 'Z' then Char.ofNat (c.toNat + 32) else c

/-- ASCII upper-casing of one character (JS `toUpperCase` on ASCII input). -/
def asciiUpper (c : Char) : Char :=
  if 'a' ≤ c ∧ c ≤ 'z' then Char.ofNat (c.toNat - 32) else c

/-- Lower-case a whole string. -/
def lower (s : Str) : Str := s.map asciiLower

/-- Decimal digit test (regex `\d`). -/
def isDigitCh (c : Char) : Bool := '0' ≤ c && c ≤ '9'

/-- Whitespace test (regex `\s`, ASCII part). -/
def wsCh (c : Char) : Bool := c == ' ' || c == '\t' || c == '\n' || c == '\r'

/-- Word-character test (regex `\w`). -/
def wordCh (c : Char) : Bool :=
  ('a' ≤ c && c ≤ 'z') || ('A' ≤ c && c ≤ 'Z') || isDigitCh c || c == '_'

/-- Does `s` start with `pre`? -/
def startsWithL : Str → Str → Bool
  | [], _ => true
  | _ :: _, [] => false
  | p :: ps, c :: cs => p == c && startsWithL ps cs

/-- JS `hay.includes(needle)` : `needle` occurs as a contiguous substring. -/
def containsSub : Str → Str → Bool
  | [], needle => needle.isEmpty
  | c :: cs, needle => startsWithL needle (c :: cs) || containsSub cs needle

/-- JS `hay.endsWith(suffix)`. -/
def endsWithL (hay suf : Str) : Bool := startsWithL suf.reverse hay.reverse

/-- Does the character `c` occur in `s`? -/
def containsChar (c : Char) (s : Str) : Bool := s.any (fun d => d == c)

/-- Does the string contain a decimal digit (regex `/\d/.test`)? -/
def hasDigit (s : Str) : Bool := s.any isDigitCh

/-- JS `s.split(sep)` for a single-character separator: `n` separators give
`n + 1` fields, empty fields included. -/
def splitChar (sep : Char) : Str → List Str
  | [] => [[]]
  | c :: cs =>
    if c == sep then [] :: splitChar sep cs
    else
      match splitChar sep cs with
      | f :: rest => (c :: f) :: rest
      | [] => [[c]]

/-- Fuelled worker for `splitRuns` (structural on the fuel so that the
kernel can evaluate it). -/
def splitRunsGo (p : Char → Bool) : Nat → Str → List Str
  | 0, s => [s]
  | _ + 1, [] => [[]]
  | fuel + 1, c :: cs =>
    if p c then [] :: splitRunsGo p fuel (cs.dropWhile p)
    else
      match splitRunsGo p fuel cs with
      | f :: rest => (c :: f) :: rest
      | [] => [[c]]

/-- JS `s.split(regex)` where the regex matches maximal nonempty runs of
characters satisfying `p` (used for `split(/\s+/)` and `split(/[.!?]+/)`). -/
def splitRuns (p : Char → Bool) (s : Str) : List Str :=
  splitRunsGo p (s.length + 1) s

/-- Fuelled worker for `splitOnSub`. -/
def splitOnSubGo (sep : Str) : Nat → Str → List Str
  | 0, s => [s]
  | _ + 1, [] => [[]]
  | fuel + 1, c :: cs =>
    if startsWithL sep (c :: cs) then
      [] :: splitOnSubGo sep fuel ((c :: cs).drop sep.length)
    else
      match splitOnSubGo sep fuel cs with
      | f :: rest => (c :: f) :: rest
      | [] => [[c]]

/-- JS `s.split(sep)` for a multi-character separator string (leftmost,
non-overlapping occurrences). -/
def splitOnSub (sep s : Str) : List Str := splitOnSubGo sep (s.length + 1) s

/-- JS `s.trim()` (ASCII whitespace). -/
def trimL (s : Str) : Str :=
  ((s.dropWhile (fun c => wsCh c)).reverse.dropWhile (fun c => wsCh c)).reverse

/-- If `s` starts with `pre`, the remainder after it. -/
def stripFront (pre s : Str) : Option Str :=
  if startsWithL pre s then some (s.drop pre.length) else none

/-- Does the pattern `p` match starting at some position of `s`
(semantics of JS `regex.test`)? -/
def scanPred (p : Str → Bool) : Str → Bool
  | [] => p []
  | c :: cs => p (c :: cs) || scanPred p cs

/-- First `some` in a list of options (models a loop of early returns). -/
def firstSome : List (Option α) → Option α
  | [] => none
  | o :: os => o <|> firstSome os

/-- Conditional push (models `if (cond) { indicators.push(x) }`). -/
def optCons (b : Bool) (x : α) (xs : List α) : List α :=
  if b then x :: xs else xs

/-!
### Levenshtein distance

`PhishingService.levenshteinDistance` (src/server/storage.ts, lines
1466-1497): guard clauses for empty strings, then a dynamic-programming
matrix built row by row, `matrix[i][j]` holding the distance between the
first `j` characters of `a` and the first `i` characters of `b`.  The
row-by-row fill is embedded as a fold; `levRowFrom` is the inner `j` loop.
-/

/-- Inner loop of the matrix fill: given `cur = matrix[i][j]`, the previous
row from position `j` on, and the characters `a[j], a[j+1], ...`, produce
`[matrix[i][j], ..., matrix[i][|a|]]`.  `c` is `b.charAt(i-1)`. -/
def levRowFrom (c : Char) : Nat → List Nat → Str → List Nat
  | cur, _, [] => [cur]
  | cur, [], _ :: _ => [cur]
  | cur, p0 :: prest, x :: xs =>
    cur ::
      levRowFrom c
        (if c = x then p0
         else Nat.min (p0 + 1) (Nat.min (cur + 1) (prest.headD 0 + 1)))
        prest xs

/-- One step of the outer `i` loop: compute row `i` from row `i - 1`
(`matrix[i][0] = i = matrix[i-1][0] + 1`). -/
def levRow (c : Char) (prev : List Nat) (a : Str) : List Nat :=
  levRowFrom c (prev.headD 0 + 1) prev a

/-- Embedding of `PhishingService.levenshteinDistance`. -/
def levenshteinDistance (a b : Str) : Nat :=
  if a.length = 0 then b.length
  else if b.length = 0 then a.length
  else
    (b.foldl (fun prev c => levRow c prev a) (List.range (a.length + 1))).getLastD 0

/-- The defining recurrence of the matrix (`matrix[i][j]` as a recursive
function of the suffix strings).  Used as the specification against which
the row-based implementation is proved, and on which the metric
properties are established. -/
def levRec : Str → Str → Nat
  | [], ys => ys.length
  | _ :: xs, [] => xs.length + 1
  | x :: xs, y :: ys =>
    if x = y then levRec xs ys
    else 1 + Nat.min (levRec xs ys) (Nat.min (levRec (x :: xs) ys) (levRec xs (y :: ys)))
termination_by xs ys => xs.length + ys.length
decreasing_by all_goals simp_arith

/-- The arithmetic sequence `[f s, f (s+1), ..., f (s+n-1)]`, used to state
the row invariant of the matrix fill. -/
def natSeq (f : Nat → Nat) : Nat → Nat → List Nat
  | _, 0 => []
  | s, n + 1 => f s :: natSeq f (s + 1) n

/-- The ASCII apostrophe character (code 39). -/
def quoteCh : Char := Char.ofNat 39

/-- The ASCII double-quote character (code 34). -/
def dquoteCh : Char := Char.ofNat 34

/-!
### Data model

`Severity`, the eight indicator categories, and the `Indicator` record of
`shared/schema` as used by both phishing services.
-/

/-- Indicator severity tiers. -/
inductive Severity
  | Low
  | Medium
  | High
deriving DecidableEq

/-- The eight indicator categories (`PhishingIndicatorType`):
`Spoofed Domain`, `Suspicious Link`, `Mismatched URLs`,
`Urgency or Pressure`, `Request for Sensitive Information`,
`Suspicious Attachment`, `Impersonation Attempt`, `Grammar Errors`. -/
inductive PhishingIndicatorType
  | SpoofedDomain
  | SuspiciousLink
  | MismatchedURLs
  | UrgencyOrPressure
  | SensitiveInfoRequest
  | SuspiciousAttachment
  | ImpersonationAttempt
  | GrammarErrors
deriving DecidableEq

/-- One structured finding (`Omit<PhishingIndicator, 'id' | 'emailId'>`). -/
structure Indicator where
  type : PhishingIndicatorType
  description : Str
  severity : Severity
  confidence : Nat
deriving DecidableEq

/-- Result record of `analyzeEmail` / `generateDemoResult`. -/
structure AnalysisResult where
  success : Bool
  phishingScore : Nat
  indicators : List Indicator
deriving DecidableEq

namespace PhishingService

/-!
### Domain spoofing analysis

`PhishingService.analyzeDomainAndSender` (src/server/storage.ts,
lines 648-736).  The per-brand loop body is split into `brandNameCheck`
(the `domain.includes(targetDomain)` block) and `brandTypoCheck` (the
typosquatting block); `some r` models the early `return result` with the
mutated fields.
-/

/-- Result record of the domain analyzer. -/
structure SpoofResult where
  isSuspicious : Bool
  description : Str
  confidence : Nat
  scoreContribution : Nat
deriving DecidableEq

/-- The curated brand list `commonDomainsToSpoof`. -/
def commonDomainsToSpoof : List Str :=
  ["paypal".data, "amazon".data, "apple".data, "microsoft".data, "google".data,
   "facebook".data, "netflix".data, "bank".data, "chase".data, "wellsfargo".data,
   "citi".data, "amex".data, "bankofamerica".data, "usbank".data, "dropbox".data,
   "linkedin".data, "twitter".data, "instagram".data, "docusign".data, "fedex".data,
   "ups".data, "usps".data, "dhl".data, "irs".data]

/-- Brand-substring block: hyphenated domains and subdomain abuse. -/
def brandNameCheck (domain targetDomain : Str) : Option SpoofResult :=
  if containsSub domain targetDomain then
    if containsSub domain "-".data then
      some { isSuspicious := true,
             description := "The sender domain \"".data ++ domain
               ++ "\" contains hyphens and appears to be impersonating ".data
               ++ targetDomain ++ ".com".data,
             confidence := 87, scoreContribution := 32 }
    else if containsSub domain ".".data
        && !endsWithL domain (".".data ++ targetDomain ++ ".com".data)
        && !endsWithL domain (".".data ++ targetDomain ++ ".org".data)
        && !endsWithL domain (".".data ++ targetDomain ++ ".net".data) then
      some { isSuspicious := true,
             description := "The sender domain \"".data ++ domain
               ++ "\" uses \"".data ++ targetDomain
               ++ "\" as a subdomain, which is a common phishing tactic".data,
             confidence := 90, scoreContribution := 35 }
    else none
  else none

/-- Typosquatting block: digit substitution, single-character difference,
homoglyph pairs in the label before the first dot. -/
def brandTypoCheck (domain targetDomain : Str) : Option SpoofResult :=
  if domain ≠ targetDomain ++ ".com".data ∧ 5 < domain.length then
    if hasDigit domain
        && decide (levenshteinDistance domain (targetDomain ++ ".com".data) ≤ 2) then
      some { isSuspicious := true,
             description := "The sender domain \"".data ++ domain
               ++ "\" appears to be a typosquat of \"".data ++ targetDomain
               ++ ".com\" using number substitution".data,
             confidence := 93, scoreContribution := 38 }
    else if levenshteinDistance domain (targetDomain ++ ".com".data) = 1 then
      some { isSuspicious := true,
             description := "The sender domain \"".data ++ domain
               ++ "\" is nearly identical to \"".data ++ targetDomain
               ++ ".com\" with a single character difference".data,
             confidence := 89, scoreContribution := 34 }
    else
      let domainWithoutTLD := (splitChar '.' domain).headD []
      if containsSub domainWithoutTLD "rn".data || containsSub domainWithoutTLD "vv".data
          || containsSub domainWithoutTLD "l1".data || containsSub domainWithoutTLD "0o".data then
        some { isSuspicious := true,
               description := "The sender domain \"".data ++ domain
                 ++ "\" appears to use visually similar characters to mimic \"".data
                 ++ targetDomain ++ ".com\"".data,
               confidence := 86, scoreContribution := 33 }
      else none
  else none

/-- One iteration of the brand loop. -/
def brandCheck (domain targetDomain : Str) : Option SpoofResult :=
  brandNameCheck domain targetDomain <|> brandTypoCheck domain targetDomain

/-- The suspicious top-level-domain list. -/
def suspiciousTLDs : List Str :=
  [".xyz".data, ".top".data, ".tk".data, ".club".data, ".online".data,
   ".info".data, ".site".data, ".gq".data, ".ml".data, ".cf".data]

/-- One iteration of the suspicious-TLD loop. -/
def tldCheck (domain tld : Str) : Option SpoofResult :=
  if endsWithL domain tld then
    some { isSuspicious := true,
           description := "The sender domain uses the suspicious TLD \"".data ++ tld
             ++ "\" which is commonly used in phishing campaigns".data,
           confidence := 75, scoreContribution := 25 }
  else none

/-- The not-suspicious default (`result` as initialised). -/
def emptySpoofResult : SpoofResult :=
  { isSuspicious := false, description := [], confidence := 0, scoreContribution := 0 }

set_option linter.unusedVariables false in
/-- Embedding of `PhishingService.analyzeDomainAndSender` (the `sender` argument is
passed by the caller but, as in the source, never read). -/
def analyzeDomainAndSender (sender domain : Str) : SpoofResult :=
  if domain.isEmpty then emptySpoofResult
  else
    match firstSome (commonDomainsToSpoof.map (brandCheck domain)) with
    | some r => r
    | none =>
      match firstSome (suspiciousTLDs.map (tldCheck domain)) with
      | some r => r
      | none => emptySpoofResult

/-!
### Link analysis

`PhishingService.analyzeLinks` (lines 741-826) and
`PhishingService.checkForMismatchedUrls` (lines 831-860).
-/

/-- Result record of the link analyzer. -/
structure LinkResult where
  hasSuspiciousLinks : Bool
  description : Str
  severity : Severity
  confidence : Nat
  scoreContribution : Nat
deriving DecidableEq

/-- One IPv4 group of the regex: one to three digits followed by a dot. -/
def ipGroup (s : Str) : Option Str :=
  let ds := s.takeWhile isDigitCh
  if 1 ≤ ds.length ∧ ds.length ≤ 3 then
    match s.drop ds.length with
    | '.' :: r => some r
    | _ => none
  else none

/-- Tail of the IPv4 regex after `https?://` : `\d{1,3}\.` three times and
then at least one digit. -/
def ipTail (s : Str) : Bool :=
  match ipGroup s with
  | none => false
  | some t1 =>
    match ipGroup t1 with
    | none => false
    | some t2 =>
      match ipGroup t2 with
      | none => false
      | some t3 =>
        match t3 with
        | c :: _ => isDigitCh c
        | [] => false

/-- Match of `https?:\/\/\d{1,3}\.\d{1,3}\.\d{1,3}\.\d{1,3}` anchored at
the start of `t`. -/
def ipLitAt (t : Str) : Bool :=
  match stripFront "http".data t with
  | none => false
  | some t1 =>
    let t2 := match t1 with
      | 's' :: r => r
      | _ => t1
    match stripFront "://".data t2 with
    | none => false
    | some t3 => ipTail t3

/-- Embedding of `ipPattern.test(content)`. -/
def ipPatternTest (content : Str) : Bool := scanPred ipLitAt content

/-- URL-shortener domains. -/
def shortenerServices : List Str :=
  ["bit.ly".data, "tinyurl".data, "goo.gl".data, "t.co".data, "ow.ly".data,
   "is.gd".data, "tiny.cc".data, "cli.gs".data, "tr.im".data]

/-- Phishing-flavoured URL-path keywords. -/
def phishingUrlTerms : List Str :=
  ["confirm".data, "update".data, "verify".data, "secure".data, "alert".data,
   "invoice".data, "statement".data, "receipt".data, "document".data]

/-- Embedding of `PhishingService.analyzeLinks`. -/
def analyzeLinks (content : Str) : LinkResult :=
  let contentLower := lower content
  if ipPatternTest content then
    { hasSuspiciousLinks := true,
      description := "Email contains links using IP addresses instead of domain names, which is highly suspicious".data,
      severity := .High, confidence := 95, scoreContribution := 28 }
  else
    match firstSome (shortenerServices.map (fun shortener =>
        if containsSub contentLower shortener then
          some ({ hasSuspiciousLinks := true,
                  description := "Email contains shortened URLs (using ".data ++ shortener
                    ++ ") which can mask malicious destinations".data,
                  severity := .Medium, confidence := 80, scoreContribution := 20 } : LinkResult)
        else none)) with
    | some r => r
    | none =>
      if containsSub content "%3A".data || containsSub content "%2F".data
          || containsSub content "%3F".data || containsSub content "%3D".data
          || containsSub content "%26".data then
        { hasSuspiciousLinks := true,
          description := "Email contains URLs with encoded characters, which may be attempting to hide malicious destinations".data,
          severity := .High, confidence := 85, scoreContribution := 25 }
      else if containsSub contentLower "url=".data || containsSub contentLower "redirect=".data
          || containsSub contentLower "goto=".data || containsSub contentLower "link=".data then
        { hasSuspiciousLinks := true,
          description := "Email contains URLs with redirect parameters that could lead to malicious sites".data,
          severity := .Medium, confidence := 75, scoreContribution := 18 }
      else if containsSub contentLower "login.".data || containsSub contentLower "account-verify".data
          || containsSub contentLower "signin".data || containsSub contentLower "secure.login".data then
        { hasSuspiciousLinks := true,
          description := "Email contains links to login or account verification pages, which are frequently spoofed in phishing attacks".data,
          severity := .Medium, confidence := 82, scoreContribution := 22 }
      else
        match firstSome (phishingUrlTerms.map (fun term =>
            if containsSub contentLower ("/".data ++ term)
                || containsSub contentLower (term ++ ".html".data)
                || containsSub contentLower (term ++ ".php".data)
                || containsSub contentLower (term ++ "?".data) then
              some ({ hasSuspiciousLinks := true,
                      description := "Email contains links with suspicious terms like \"".data
                        ++ term ++ "\" which are common in phishing URLs".data,
                      severity := .Medium, confidence := 70, scoreContribution := 16 } : LinkResult)
            else none)) with
        | some r => r
        | none =>
          { hasSuspiciousLinks := false, description := [],
            severity := .Medium, confidence := 0, scoreContribution := 0 }

/-- Trusted domains of the mismatched-URL pass. -/
def trustedDomains : List Str :=
  ["paypal.com".data, "amazon.com".data, "apple.com".data, "microsoft.com".data,
   "google.com".data, "facebook.com".data, "chase.com".data,
   "bankofamerica.com".data, "wellsfargo.com".data]

/-- Embedding of `PhishingService.checkForMismatchedUrls`. -/
def checkForMismatchedUrls (content : Str) : Bool :=
  if !containsSub content "href=".data then false
  else
    let segments := splitOnSub "href=".data content
    (segments.drop 1).any fun seg =>
      let linkPart := ((splitChar '>' seg).headD []).filter
        (fun c => !(c == dquoteCh || c == quoteCh))
      let textPart := match (splitChar '>' seg).get? 1 with
        | some t => (splitChar '<' t).headD []
        | none => []
      (containsSub linkPart "http".data && containsSub textPart "http".data
          && !containsSub linkPart textPart && !containsSub textPart linkPart)
        || trustedDomains.any (fun dm => containsSub textPart dm && !containsSub linkPart dm)

/-!
### Urgency and pressure analysis

`PhishingService.analyzeUrgencyAndPressure` (lines 865-949).
-/

/-- Result record of the urgency analyzer. -/
structure UrgencyResult where
  hasUrgencyTactics : Bool
  description : Str
  severity : Severity
  confidence : Nat
  scoreContribution : Nat
deriving DecidableEq

/-- High-urgency phrases. -/
def highUrgencyPhrases : List Str :=
  ["account suspended".data, "account disabled".data, "account terminated".data,
   "security breach".data, "unauthorized access".data, "suspicious activity".data,
   "immediate action required".data, "within 24 hours".data,
   "account will be closed".data, "legal action".data, "overdue payment".data,
   "final notice".data, "urgent security issue".data]

/-- Medium-urgency phrases. -/
def mediumUrgencyPhrases : List Str :=
  ["verify now".data, "update immediately".data, "action required".data,
   "expires soon".data, "limited time".data, "urgent".data, "warning".data,
   "alert".data, "important notice".data, "time sensitive".data,
   "respond quickly".data, "don\x27t delay".data]

/-- Low-urgency phrases. -/
def lowUrgencyPhrases : List Str :=
  ["reminder".data, "please update".data, "attention".data,
   "important information".data, "please review".data, "soon".data,
   "before it\x27s too late".data, "don\x27t miss out".data]

/-- Match of `within \d+ (hour|day|minute)` anchored at the start of `t`. -/
def deadlineWithinAt (t : Str) : Bool :=
  match stripFront "within ".data t with
  | none => false
  | some t1 =>
    match t1 with
    | c :: cs =>
      isDigitCh c &&
        (match cs.dropWhile isDigitCh with
         | ' ' :: t2 =>
           startsWithL "hour".data t2 || startsWithL "day".data t2
             || startsWithL "minute".data t2
         | _ => false)
    | [] => false

/-- Match of `expires? (in|on) \d+` anchored at the start of `t`. -/
def deadlineExpireAt (t : Str) : Bool :=
  match stripFront "expire".data t with
  | none => false
  | some t1 =>
    let t2 := match t1 with
      | 's' :: r => r
      | _ => t1
    match t2 with
    | ' ' :: t3 =>
      (startsWithL "in ".data t3 || startsWithL "on ".data t3) &&
        (match t3.drop 3 with
         | c :: _ => isDigitCh c
         | [] => false)
    | _ => false

/-- Worker for `before \w+ \d+` : consume the rest of `\w+`, then a space,
then require a digit. -/
def beforeTailAux : Str → Bool
  | ' ' :: cs =>
    match cs with
    | d :: _ => isDigitCh d
    | [] => false
  | c :: cs => wordCh c && beforeTailAux cs
  | [] => false

/-- Match of `before \w+ \d+` anchored at the start of `t`. -/
def deadlineBeforeAt (t : Str) : Bool :=
  match stripFront "before ".data t with
  | none => false
  | some (c :: cs) => wordCh c && beforeTailAux cs
  | some [] => false

/-- Match of `by (today|tomorrow)` somewhere in `s`. -/
def deadlineByTest (s : Str) : Bool :=
  containsSub s "by today".data || containsSub s "by tomorrow".data

/-- The four deadline patterns as whole-string tests. -/
def deadlinePatterns : List (Str → Bool) :=
  [scanPred deadlineWithinAt, scanPred deadlineExpireAt,
   scanPred deadlineBeforeAt, deadlineByTest]

/-- Embedding of `PhishingService.analyzeUrgencyAndPressure`. -/
def analyzeUrgencyAndPressure (contentLower subjectLower : Str) : UrgencyResult :=
  match firstSome (highUrgencyPhrases.map (fun phrase =>
      if containsSub contentLower phrase || containsSub subjectLower phrase then
        some ({ hasUrgencyTactics := true,
                description := "Email creates a high sense of urgency with phrases like \"".data
                  ++ phrase ++ "\" to pressure immediate action".data,
                severity := .High, confidence := 88, scoreContribution := 25 } : UrgencyResult)
      else none)) with
  | some r => r
  | none =>
    match firstSome (mediumUrgencyPhrases.map (fun phrase =>
        if containsSub contentLower phrase || containsSub subjectLower phrase then
          some ({ hasUrgencyTactics := true,
                  description := "Email creates urgency with phrases like \"".data
                    ++ phrase ++ "\" to encourage quick action without proper verification".data,
                  severity := .Medium, confidence := 78, scoreContribution := 18 } : UrgencyResult)
        else none)) with
    | some r => r
    | none =>
      match firstSome (lowUrgencyPhrases.map (fun phrase =>
          if containsSub contentLower phrase || containsSub subjectLower phrase then
            some ({ hasUrgencyTactics := true,
                    description := "Email uses mild urgency tactics with phrases like \"".data
                      ++ phrase ++ "\" which could be legitimate but warrants attention".data,
                    severity := .Low, confidence := 60, scoreContribution := 10 } : UrgencyResult)
          else none)) with
      | some r => r
      | none =>
        if deadlinePatterns.any (fun p => p contentLower || p subjectLower) then
          { hasUrgencyTactics := true,
            description := "Email creates urgency by setting a tight deadline for action, a common phishing tactic".data,
            severity := .Medium, confidence := 75, scoreContribution := 16 }
        else
          { hasUrgencyTactics := false, description := [],
            severity := .Medium, confidence := 0, scoreContribution := 0 }

/-!
### Sensitive-information analysis

`PhishingService.analyzeSensitiveInfoRequests` (lines 954-1019).
-/

/-- Result record of the sensitive-information analyzer. -/
structure SensResult where
  requestsSensitiveInfo : Bool
  description : Str
  confidence : Nat
  scoreContribution : Nat
deriving DecidableEq

/-- Critical-data phrases. -/
def criticalInfoPhrases : List Str :=
  ["social security".data, "ssn".data, "tax id".data, "passport".data,
   "credit card".data, "card number".data, "cvv".data, "pin number".data,
   "mother\x27s maiden name".data, "birth date".data, "full ssn".data,
   "bank account".data, "wire transfer".data, "routing number".data,
   "full card details".data]

/-- High-risk account-verification phrases. -/
def highRiskPhrases : List Str :=
  ["verify your account".data, "confirm your information".data,
   "update your details".data, "verification required".data,
   "login details".data, "password reset".data, "security questions".data,
   "identity verification".data, "billing information".data,
   "payment details".data, "enter your password".data]

/-- Embedding of `PhishingService.analyzeSensitiveInfoRequests`. -/
def analyzeSensitiveInfoRequests (contentLower : Str) : SensResult :=
  match firstSome (criticalInfoPhrases.map (fun phrase =>
      if containsSub contentLower phrase then
        some ({ requestsSensitiveInfo := true,
                description := "Email requests extremely sensitive personal or financial information (".data
                  ++ phrase ++ ")".data,
                confidence := 95, scoreContribution := 35 } : SensResult)
      else none)) with
  | some r => r
  | none =>
    match firstSome (highRiskPhrases.map (fun phrase =>
        if containsSub contentLower phrase then
          some ({ requestsSensitiveInfo := true,
                  description := "Email asks you to provide or verify account information or credentials".data,
                  confidence := 88, scoreContribution := 28 } : SensResult)
        else none)) with
    | some r => r
    | none =>
      if (containsSub contentLower "log".data || containsSub contentLower "sign".data)
          && (containsSub contentLower "your account".data || containsSub contentLower "for security".data)
          && (containsSub contentLower "click".data || containsSub contentLower "link".data) then
        { requestsSensitiveInfo := true,
          description := "Email asks you to log in to your account via a provided link, a common credential harvesting tactic".data,
          confidence := 85, scoreContribution := 26 }
      else if (containsSub contentLower "form".data || containsSub contentLower "fill".data)
          && (containsSub contentLower "information".data || containsSub contentLower "details".data) then
        { requestsSensitiveInfo := true,
          description := "Email asks you to fill out a form with your information".data,
          confidence := 75, scoreContribution := 20 }
      else
        { requestsSensitiveInfo := false, description := [], confidence := 0, scoreContribution := 0 }

/-!
### Attachment analysis

`PhishingService.analyzeAttachments` (lines 1024-1097).
-/

/-- Result record of the attachment analyzer. -/
structure AttachResult where
  hasSuspiciousAttachments : Bool
  description : Str
  severity : Severity
  confidence : Nat
  scoreContribution : Nat
deriving DecidableEq

/-- High-risk executable extensions. -/
def criticalExtensions : List Str :=
  [".exe".data, ".bat".data, ".vbs".data, ".js".data, ".scr".data, ".cmd".data,
   ".pif".data, ".msi".data, ".hta".data, ".dll".data, ".ps1".data]

/-- Medium-risk archive and macro-capable extensions. -/
def suspiciousExtensions : List Str :=
  [".zip".data, ".rar".data, ".7z".data, ".jar".data, ".iso".data,
   ".docm".data, ".xlsm".data, ".pptm".data]

/-- Installer and crack-tool keywords. -/
def executablePatterns : List Str :=
  ["setup".data, "install".data, "update.exe".data, "patch".data,
   "crack".data, "keygen".data, "activator".data]

/-- Embedding of `PhishingService.analyzeAttachments`. -/
def analyzeAttachments (contentLower : Str) : AttachResult :=
  match firstSome (criticalExtensions.map (fun ext =>
      if containsSub contentLower ext then
        some ({ hasSuspiciousAttachments := true,
                description := "Email contains references to executable file attachments (".data
                  ++ ext ++ ") which can run malicious code".data,
                severity := .High, confidence := 92, scoreContribution := 32 } : AttachResult)
      else none)) with
  | some r => r
  | none =>
    match firstSome (suspiciousExtensions.map (fun ext =>
        if containsSub contentLower ext then
          some ({ hasSuspiciousAttachments := true,
                  description := "Email contains references to compressed or macro-enabled document attachments (".data
                    ++ ext ++ ") which may contain malicious code".data,
                  severity := .Medium, confidence := 82, scoreContribution := 24 } : AttachResult)
        else none)) with
    | some r => r
    | none =>
      match firstSome (executablePatterns.map (fun pat =>
          if containsSub contentLower pat then
            some ({ hasSuspiciousAttachments := true,
                    description := "Email contains references to potentially malicious executable files (".data
                      ++ pat ++ ")".data,
                    severity := .High, confidence := 88, scoreContribution := 30 } : AttachResult)
          else none)) with
      | some r => r
      | none =>
        if (containsSub contentLower "attachment".data || containsSub contentLower "attached".data
              || containsSub contentLower "file".data)
            && (containsSub contentLower "open".data || containsSub contentLower "download".data
              || containsSub contentLower "enable".data)
            && (containsSub contentLower "now".data || containsSub contentLower "immediately".data
              || containsSub contentLower "must".data) then
          { hasSuspiciousAttachments := true,
            description := "Email pressures recipient to open attachments or enable content, which may enable malicious code".data,
            severity := .Medium, confidence := 85, scoreContribution := 26 }
        else
          { hasSuspiciousAttachments := false, description := [],
            severity := .Medium, confidence := 0, scoreContribution := 0 }

/-!
### Impersonation analysis

`PhishingService.analyzeImpersonationAttempt` (lines 1102-1173; the file
contains a second, textually identical copy at lines 1364-1435, embedded
once here).
-/

/-- Result record of the impersonation analyzer. -/
structure ImpResult where
  hasImpersonation : Bool
  description : Str
  severity : Severity
  confidence : Nat
  scoreContribution : Nat
deriving DecidableEq

/-- One impersonated entity with its brand-flavoured phrases. -/
structure ImpEntity where
  name : Str
  terms : List Str

/-- The impersonated-entity table. -/
def impersonatedEntities : List ImpEntity :=
  [⟨"paypal".data, ["paypal payment".data, "paypal team".data, "paypal service".data, "paypal account".data]⟩,
   ⟨"amazon".data, ["amazon order".data, "amazon team".data, "amazon prime".data, "amazon account".data, "amazon shipping".data]⟩,
   ⟨"apple".data, ["apple id".data, "icloud".data, "apple store".data, "apple support".data, "apple team".data]⟩,
   ⟨"microsoft".data, ["microsoft account".data, "microsoft team".data, "office 365".data, "microsoft security".data, "microsoft support".data]⟩,
   ⟨"google".data, ["google account".data, "gmail team".data, "google security".data, "google drive".data, "google support".data]⟩,
   ⟨"facebook".data, ["facebook security".data, "facebook team".data, "facebook support".data, "facebook account".data]⟩,
   ⟨"netflix".data, ["netflix account".data, "netflix team".data, "netflix subscription".data, "netflix payment".data]⟩,
   ⟨"bank".data, ["bank account".data, "banking team".data, "account alert".data, "fraud department".data, "bank statement".data]⟩,
   ⟨"irs".data, ["tax refund".data, "tax return".data, "irs notice".data, "irs payment".data, "tax payment".data]⟩,
   ⟨"shipping".data, ["package delivery".data, "delivery notification".data, "shipping update".data, "track your package".data]⟩]

/-- Executive titles of the authority-impersonation check. -/
def executiveTitles : List Str :=
  ["ceo".data, "president".data, "director".data, "manager".data,
   "supervisor".data, "executive".data, "hr".data, "human resources".data]

/-- Organisational-identity phrases. -/
def impersonationPhrases : List Str :=
  ["this is".data, "we are".data, "on behalf of".data, "representing".data,
   "from the desk of".data, "department of".data, "official notice".data,
   "support team".data, "security team".data, "service team".data]

/-- Embedding of `contentLower.split(phrase)[1]?.trim()?.split(' ')[0] || ''`. -/
def firstWordAfter (contentLower phrase : Str) : Str :=
  match (splitOnSub phrase contentLower).get? 1 with
  | none => []
  | some seg => (splitChar ' ' (trimL seg)).headD []

/-- Embedding of `PhishingService.analyzeImpersonationAttempt`. -/
def analyzeImpersonationAttempt (contentLower sender domain : Str) : ImpResult :=
  match firstSome (impersonatedEntities.map (fun entity =>
      firstSome (entity.terms.map (fun term =>
        if containsSub contentLower term then
          if !containsSub domain entity.name && !containsSub sender entity.name then
            some ({ hasImpersonation := true,
                    description := "Email appears to be from ".data ++ entity.name
                      ++ " but was sent from ".data ++ domain,
                    severity := .High, confidence := 92, scoreContribution := 30 } : ImpResult)
          else none
        else none)))) with
  | some r => r
  | none =>
    match firstSome (executiveTitles.map (fun title =>
        if containsSub contentLower title
            && (containsSub contentLower "urgent request".data
              || containsSub contentLower "immediate attention".data) then
          some ({ hasImpersonation := true,
                  description := "Email appears to impersonate a ".data ++ title
                    ++ " or authority figure making an urgent request".data,
                  severity := .High, confidence := 85, scoreContribution := 28 } : ImpResult)
        else none)) with
    | some r => r
    | none =>
      match firstSome (impersonationPhrases.map (fun phrase =>
          if containsSub contentLower phrase
              && !containsSub domain (firstWordAfter contentLower phrase) then
            some ({ hasImpersonation := true,
                    description := "Email contains phrases claiming to be from an organization that doesn\x27t match the sender\x27s domain".data,
                    severity := .Medium, confidence := 78, scoreContribution := 22 } : ImpResult)
          else none)) with
      | some r => r
      | none =>
        { hasImpersonation := false, description := [],
          severity := .Medium, confidence := 0, scoreContribution := 0 }

/-!
### Language and grammar analysis

`PhishingService.analyzeLanguageAndGrammar` (lines 1178-1266; the file
contains a second, textually identical copy at lines 1271-1359, embedded
once here).
-/

/-- Result record of the language analyzer. -/
structure LangResult where
  hasIssues : Bool
  description : Str
  severity : Severity
  confidence : Nat
  scoreContribution : Nat
deriving DecidableEq

/-- Known misspellings. -/
def commonErrors : List Str :=
  ["acount".data, "verfy".data, "verifcation".data, "authetication".data,
   "immediatly".data, "securty".data, "infomation".data, "infromation".data,
   "confirmat".data, "suspicios".data, "kindly".data, "valuble".data]

/-- Generic greetings. -/
def genericGreetings : List Str :=
  ["dear user".data, "dear customer".data, "dear valued".data,
   "dear client".data, "attention user".data, "hello user".data,
   "valued customer".data]

/-- The accumulated `poorGrammarScore` of `analyzeLanguageAndGrammar`. -/
def poorGrammarScore (content : Str) : Nat :=
  let contentLower := lower content
  let words := splitRuns (fun c => wsCh c) content
  let sentences := (splitRuns (fun c => c == '.' || c == '!' || c == '?') content).filter
    (fun s => 0 < (trimL s).length)
  let s1 := if scanPred (fun t =>
      match t with
      | a :: b :: _ => (a == '!' || a == '?') && (b == '!' || b == '?')
      | _ => false) content then 2 else 0
  let allCapsWords := words.filter (fun w => 3 < w.length && w == w.map asciiUpper)
  let s2 := if 1 < allCapsWords.length then allCapsWords.length else 0
  let mixedCaseWords := words.filter (fun w =>
    if w.length < 4 then false
    else (w.drop 1).any (fun ch => asciiLower ch == ch)
      && (w.drop 1).any (fun ch => asciiUpper ch == ch))
  let s3 := if 0 < mixedCaseWords.length then mixedCaseWords.length * 2 else 0
  let shortSentences := sentences.filter (fun s => (splitChar ' ' s).length < 3)
  let s4 := if 2 < shortSentences.length then shortSentences.length else 0
  let s5 := (commonErrors.filter (fun e => containsSub contentLower e)).length * 3
  let s6 := (genericGreetings.filter (fun g => containsSub contentLower g)).length * 4
  s1 + s2 + s3 + s4 + s5 + s6

/-- Embedding of `PhishingService.analyzeLanguageAndGrammar`. -/
def analyzeLanguageAndGrammar (content : Str) : LangResult :=
  let g := poorGrammarScore content
  if 10 ≤ g then
    { hasIssues := true,
      description := "Email contains multiple grammar errors, unusual formatting, and generic greetings typical of phishing attempts".data,
      severity := .Medium, confidence := 80, scoreContribution := 18 }
  else if 5 ≤ g then
    { hasIssues := true,
      description := "Email contains some grammar or spelling errors that are common in phishing messages".data,
      severity := .Low, confidence := 65, scoreContribution := 10 }
  else
    { hasIssues := false, description := [], severity := .Low,
      confidence := 0, scoreContribution := 0 }

/-!
### Aggregation

`PhishingService.generateDemoResult` (lines 506-643).  The indicator list
(`indicators.push` under each analyzer's flag, in the fixed order), the
accumulated `phishingScore`, the two post-pass bonuses, the
`Math.min(Math.round(...), 100)` cap (rounding is the identity on these
integer totals) and the random no-indicator override
`Math.floor(Math.random() * 15) + 1` (the draw
`Math.floor(Math.random() * 15)` is the explicit `rand : Fin 15`
parameter).
-/

/-- Embedding of `sender.split('@')[1]?.toLowerCase() || ''`. -/
def domainOf (sender : Str) : Str :=
  lower (((splitChar '@' sender).get? 1).getD [])

/-- Gate of the grammar analyzer:
`emailContent.length > 0 && emailContent.split(' ').length > 10`. -/
def grammarGate (emailContent : Str) : Bool :=
  0 < emailContent.length && 10 < (splitChar ' ' emailContent).length

/-- The indicator list collected by `generateDemoResult`, in evaluation
order. -/
def indicatorsOf (emailContent sender subject : Str) : List Indicator :=
  let contentLower := lower emailContent
  let subjectLower := lower subject
  let domain := domainOf sender
  let spoofingResult := analyzeDomainAndSender sender domain
  let linkResult := analyzeLinks emailContent
  let urgencyResult := analyzeUrgencyAndPressure contentLower subjectLower
  let sensitiveInfoResult := analyzeSensitiveInfoRequests contentLower
  let attachmentResult := analyzeAttachments contentLower
  let impersonationResult := analyzeImpersonationAttempt contentLower sender domain
  let languageResult := analyzeLanguageAndGrammar emailContent
  optCons spoofingResult.isSuspicious
    ⟨.SpoofedDomain, spoofingResult.description, .High, spoofingResult.confidence⟩
    (optCons linkResult.hasSuspiciousLinks
      ⟨.SuspiciousLink, linkResult.description, linkResult.severity, linkResult.confidence⟩
      (optCons (checkForMismatchedUrls emailContent)
        ⟨.MismatchedURLs,
         "Email contains links where the displayed text doesn\x27t match the actual URL".data,
         .High, 92⟩
        (optCons urgencyResult.hasUrgencyTactics
          ⟨.UrgencyOrPressure, urgencyResult.description, urgencyResult.severity,
           urgencyResult.confidence⟩
          (optCons sensitiveInfoResult.requestsSensitiveInfo
            ⟨.SensitiveInfoRequest, sensitiveInfoResult.description, .High,
             sensitiveInfoResult.confidence⟩
            (optCons attachmentResult.hasSuspiciousAttachments
              ⟨.SuspiciousAttachment, attachmentResult.description,
               attachmentResult.severity, attachmentResult.confidence⟩
              (optCons impersonationResult.hasImpersonation
                ⟨.ImpersonationAttempt, impersonationResult.description,
                 impersonationResult.severity, impersonationResult.confidence⟩
                (optCons (grammarGate emailContent && languageResult.hasIssues)
                  ⟨.GrammarErrors, languageResult.description,
                   languageResult.severity, languageResult.confidence⟩
                  [])))))))

/-- The `phishingScore` accumulated over the analyzer passes (before the
two post-pass bonuses). -/
def baseScore (emailContent sender subject : Str) : Nat :=
  let contentLower := lower emailContent
  let subjectLower := lower subject
  let domain := domainOf sender
  let spoofingResult := analyzeDomainAndSender sender domain
  let linkResult := analyzeLinks emailContent
  let urgencyResult := analyzeUrgencyAndPressure contentLower subjectLower
  let sensitiveInfoResult := analyzeSensitiveInfoRequests contentLower
  let attachmentResult := analyzeAttachments contentLower
  let impersonationResult := analyzeImpersonationAttempt contentLower sender domain
  let languageResult := analyzeLanguageAndGrammar emailContent
  (if spoofingResult.isSuspicious then spoofingResult.scoreContribution else 0)
    + (if linkResult.hasSuspiciousLinks then linkResult.scoreContribution else 0)
    + (if checkForMismatchedUrls emailContent then 28 else 0)
    + (if urgencyResult.hasUrgencyTactics then urgencyResult.scoreContribution else 0)
    + (if sensitiveInfoResult.requestsSensitiveInfo then sensitiveInfoResult.scoreContribution else 0)
    + (if attachmentResult.hasSuspiciousAttachments then attachmentResult.scoreContribution else 0)
    + (if impersonationResult.hasImpersonation then impersonationResult.scoreContribution else 0)
    + (if grammarGate emailContent && languageResult.hasIssues then languageResult.scoreContribution else 0)

/-- Number of collected indicators whose severity is `High`
(`indicators.filter(ind => ind.severity === 'High').length`). -/
def highRiskCount (emailContent sender subject : Str) : Nat :=
  ((indicatorsOf emailContent sender subject).filter
    (fun ind => ind.severity == Severity.High)).length

/-- The `phishingScore` after the two post-pass bonuses, before the cap. -/
def preCapScore (emailContent sender subject : Str) : Nat :=
  baseScore emailContent sender subject
    + (if 2 ≤ highRiskCount emailContent sender subject then 10 else 0)
    + (if (analyzeUrgencyAndPressure (lower emailContent) (lower subject)).hasUrgencyTactics
          && (analyzeSensitiveInfoRequests (lower emailContent)).requestsSensitiveInfo
       then 15 else 0)

/-- Embedding of `PhishingService.generateDemoResult`. -/
def generateDemoResult (emailContent sender subject : Str) (rand : Fin 15) :
    AnalysisResult :=
  let indicators := indicatorsOf emailContent sender subject
  let capped := Nat.min (preCapScore emailContent sender subject) 100
  { success := true,
    phishingScore := if indicators.isEmpty then rand.val + 1 else capped,
    indicators := indicators }

end PhishingService

namespace PhishingServiceLegacy

/-!
### The duplicate phishing service

`server/services/phishingService.ts` (src/unnamed/part_009) contains a
second `PhishingService` class with a simpler `generateDemoResult`
(lines 95-185) built on boolean `checkFor*` helpers (lines 191-327).  Its
grammar check is a raw random draw (`Math.random() > 0.7`, the `grammarRand`
parameter) and its no-indicator override is
`Math.floor(Math.random() * 20) + 5` (the draw is the `rand : Fin 20`
parameter).
-/

/-- Brand list of the legacy `checkForSpoofedDomain`. -/
def commonDomainsToSpoof : List Str :=
  ["paypal".data, "amazon".data, "apple".data, "microsoft".data, "google".data,
   "facebook".data, "bank".data, "chase".data, "wellsfargo".data, "citi".data,
   "amex".data]

/-- Legacy `checkForSpoofedDomain`. -/
def checkForSpoofedDomain (sender : Str) : Bool :=
  let domain := PhishingService.domainOf sender
  if domain.isEmpty then false
  else
    commonDomainsToSpoof.any fun targetDomain =>
      (containsSub domain targetDomain
          && (containsSub domain "-".data
            || (containsSub domain ".".data && !endsWithL domain ".com".data)))
        || (decide (levenshteinDistance domain (targetDomain ++ ".com".data) ≤ 2)
          && !(domain == targetDomain ++ ".com".data))

/-- Suspicious TLD list of the legacy link check. -/
def suspiciousTLDs : List Str :=
  [".xyz".data, ".top".data, ".tk".data, ".club".data, ".online".data,
   ".info".data, ".biz".data]

/-- Legacy `checkForSuspiciousLinks`. -/
def checkForSuspiciousLinks (content : Str) : Bool :=
  (containsSub content "href=".data
      && (containsSub (lower content) "click here".data
        || containsSub (lower content) "click this link".data))
    || PhishingService.ipPatternTest content
    || suspiciousTLDs.any (fun tld => containsSub content tld)
    || containsSub content "url=".data || containsSub content "redirect=".data
    || containsSub content "login.".data || containsSub content "account-verify".data

/-- Urgency phrases of the legacy check. -/
def urgencyPhrases : List Str :=
  ["urgent".data, "immediate".data, "alert".data, "attention required".data,
   "action required".data, "expires soon".data, "limited time".data,
   "account suspended".data, "security alert".data, "24 hours".data,
   "immediately".data, "warning".data, "now".data, "quickly".data,
   "urgent action".data, "verify now".data, "suspicious activity".data,
   "unauthorized".data]

/-- Legacy `checkForUrgencyLanguage`. -/
def checkForUrgencyLanguage (content subject : Str) : Bool :=
  let contentLower := lower content
  let subjectLower := lower subject
  urgencyPhrases.any fun phrase =>
    containsSub contentLower phrase || containsSub subjectLower phrase

/-- Sensitive-data phrases of the legacy check. -/
def sensitiveDataPhrases : List Str :=
  ["password".data, "credit card".data, "ssn".data, "social security".data,
   "bank account".data, "verify your account".data,
   "confirm your information".data, "update your details".data,
   "verification required".data, "login details".data,
   "security questions".data, "identity verification".data,
   "billing information".data, "payment details".data,
   "reset your password".data]

/-- Legacy `checkForSensitiveInfoRequests`. -/
def checkForSensitiveInfoRequests (content : Str) : Bool :=
  let contentLower := lower content
  sensitiveDataPhrases.any fun phrase => containsSub contentLower phrase

/-- Suspicious extensions of the legacy attachment check. -/
def suspiciousExtensions : List Str :=
  [".exe".data, ".zip".data, ".jar".data, ".bat".data, ".vbs".data,
   ".js".data, ".scr".data, ".cmd".data, ".pif".data, ".msi".data,
   ".hta".data, ".dll".data, ".ps1".data]

/-- Legacy `checkForSuspiciousAttachments`. -/
def checkForSuspiciousAttachments (content : Str) : Bool :=
  let contentLower := lower content
  suspiciousExtensions.any (fun ext => containsSub contentLower ext)
    || ((containsSub contentLower "attachment".data || containsSub contentLower "attached".data)
      && (containsSub contentLower "open".data || containsSub contentLower "view".data
        || containsSub contentLower "see".data || containsSub contentLower "download".data))

/-- Legacy `generateDemoResult` (part_009, lines 95-185).  Note the
no-indicator override at lines 176-179:
`phishingScore = Math.floor(Math.random() * 20) + 5`. -/
def generateDemoResult (emailContent sender subject : Str) (grammarRand : Bool)
    (rand : Fin 20) : AnalysisResult :=
  let gate := 0 < emailContent.length && 10 < (splitChar ' ' emailContent).length
  let indicators :=
    optCons (checkForSpoofedDomain sender)
      ⟨.SpoofedDomain,
       "The sender domain \"".data ++ ((splitChar '@' sender).get? 1).getD "undefined".data
         ++ "\" appears to be mimicking a legitimate domain".data,
       .High, 85⟩
      (optCons (checkForSuspiciousLinks emailContent)
        ⟨.SuspiciousLink,
         "Email contains links to suspicious or malformed URLs".data, .High, 90⟩
        (optCons (checkForUrgencyLanguage emailContent subject)
          ⟨.UrgencyOrPressure,
           "Email contains language creating a false sense of urgency".data, .Medium, 75⟩
          (optCons (checkForSensitiveInfoRequests emailContent)
            ⟨.SensitiveInfoRequest,
             "Email requests sensitive personal or financial information".data, .High, 95⟩
            (optCons (checkForSuspiciousAttachments emailContent)
              ⟨.SuspiciousAttachment,
               "Email contains references to suspicious file attachments".data, .High, 80⟩
              (optCons (gate && grammarRand)
                ⟨.GrammarErrors,
                 "Email contains multiple grammar or spelling errors".data, .Low, 65⟩
                [])))))
  let score :=
    (if checkForSpoofedDomain sender then 30 else 0)
      + (if checkForSuspiciousLinks emailContent then 25 else 0)
      + (if checkForUrgencyLanguage emailContent subject then 15 else 0)
      + (if checkForSensitiveInfoRequests emailContent then 30 else 0)
      + (if checkForSuspiciousAttachments emailContent then 20 else 0)
      + (if gate && grammarRand then 10 else 0)
  let capped := Nat.min score 100
  { success := true,
    phishingScore := if indicators.isEmpty then rand.val + 5 else capped,
    indicators := indicators }

end PhishingServiceLegacy

namespace FraudService

/-!
### The fraud rule engine

`FraudService` of `src/client/src/pages/LandingPage.tsx`: the five
built-in rules, `getRules`, `updateRules` (lines 874-887) and
`detectFraud` (lines 894-921).  Each rule's `check` closure reads fixed
fields of the untyped `data` record (missing fields are falsy/zero, so
`EventData` carries exactly those fields with falsy defaults); the
`multiple-attempts` closure also reads the *current* rule table through
`this.getRuleById`, so `check` is embedded as a tag (`CheckKind`)
interpreted by `evalCheck` against the current table.
-/

/-- Tags for the five built-in predicate closures. -/
inductive CheckKind
  | multipleAttempts
  | ipAnomaly
  | unusualTiming
  | identityMismatch
  | rapidChanges
deriving DecidableEq

/-- The fields of the event-data record read by the built-in predicates
(missing fields of the untyped JS record are falsy/zero). -/
structure EventData where
  failedAttempts : Nat := 0
  ipAnomaly : Bool := false
  unusualTiming : Bool := false
  identityMismatch : Bool := false
  rapidChanges : Bool := false
deriving DecidableEq

/-- A fraud rule (interface `FraudRule`). -/
structure FraudRule where
  id : Str
  name : Str
  description : Str
  enabled : Bool
  threshold : Option Nat := none
  check : CheckKind
deriving DecidableEq

/-- A rule as seen through the configuration surface
(`Omit<FraudRule, 'check'>`). -/
structure RuleConfig where
  id : Str
  name : Str
  description : Str
  enabled : Bool
  threshold : Option Nat := none
deriving DecidableEq

/-- Embedding of `FraudService.getRuleById`. -/
def getRuleById (rules : List FraudRule) (i : Str) : Option FraudRule :=
  rules.find? (fun r => r.id == i)

/-- Interpretation of the predicate closures against the current rule
table (`this.rules`) and the event data. -/
def evalCheck (rules : List FraudRule) (k : CheckKind) (d : EventData) : Bool :=
  match k with
  | .multipleAttempts =>
    -- (data.failedAttempts || 0) >= (this.getRuleById("multiple-attempts")?.threshold || 3)
    let th :=
      match (getRuleById rules "multiple-attempts".data).bind (fun r => r.threshold) with
      | some t => if t = 0 then 3 else t
      | none => 3
    decide (th ≤ d.failedAttempts)
  | .ipAnomaly => d.ipAnomaly
  | .unusualTiming => d.unusualTiming
  | .identityMismatch => d.identityMismatch
  | .rapidChanges => d.rapidChanges

/-- The rule table built by the constructor. -/
def defaultRules : List FraudRule :=
  [{ id := "multiple-attempts".data, name := "Multiple Failed Attempts".data,
     description := "Flag accounts with multiple failed verification attempts".data,
     enabled := true, threshold := some 3, check := .multipleAttempts },
   { id := "ip-anomaly".data, name := "IP Address Anomaly".data,
     description := "Detect access from unusual locations or IP addresses".data,
     enabled := true, check := .ipAnomaly },
   { id := "unusual-timing".data, name := "Unusual Access Timing".data,
     description := "Detect access at unusual hours or patterns".data,
     enabled := true, check := .unusualTiming },
   { id := "identity-mismatch".data, name := "Identity Mismatch".data,
     description := "Detect when submitted identity information differs from records".data,
     enabled := true, check := .identityMismatch },
   { id := "rapid-changes".data, name := "Rapid Profile Changes".data,
     description := "Flag accounts with frequent or unusual profile changes".data,
     enabled := false, check := .rapidChanges }]

/-- Strip the `check` member (`({ check, ...rule }) => rule`). -/
def toRuleConfig (r : FraudRule) : RuleConfig :=
  ⟨r.id, r.name, r.description, r.enabled, r.threshold⟩

/-- Embedding of `FraudService.getRules`. -/
def getRules (rules : List FraudRule) : List RuleConfig :=
  rules.map toRuleConfig

/-- Embedding of `this.rules.findIndex(r => r.id === updatedRule.id)` (with `none` for
`-1`). -/
def findIdxBy : List FraudRule → Str → Option Nat
  | [], _ => none
  | r :: rs, i => if r.id = i then some 0 else (findIdxBy rs i).map (· + 1)

/-- One iteration of the `updatedRules.forEach` loop of
`FraudService.updateRules`: on a matching id the stored rule becomes
`{ ...updatedRule, check: this.rules[existingRuleIndex].check }`. -/
def updateRule (rules : List FraudRule) (cfg : RuleConfig) : List FraudRule :=
  match findIdxBy rules cfg.id with
  | none => rules
  | some i =>
    match rules.get? i with
    | none => rules
    | some old =>
      rules.set i
        { id := cfg.id, name := cfg.name, description := cfg.description,
          enabled := cfg.enabled, threshold := cfg.threshold, check := old.check }

/-- Embedding of `FraudService.updateRules` as a transformation of the rule table. -/
def updateRules (rules : List FraudRule) (updatedRules : List RuleConfig) :
    List FraudRule :=
  updatedRules.foldl updateRule rules

/-- Result record of `detectFraud`. -/
structure FraudAssessment where
  isFraudulent : Bool
  severity : Severity
  triggeredRules : List Str
deriving DecidableEq

/-- Embedding of `FraudService.detectFraud`. -/
def detectFraud (rules : List FraudRule) (data : EventData) : FraudAssessment :=
  let triggeredRules := rules.foldl
    (fun acc r => if r.enabled && evalCheck rules r.check data then acc ++ [r.id] else acc)
    ([] : List Str)
  let severity : Severity :=
    if 2 < triggeredRules.length then .High
    else if 0 < triggeredRules.length then .Medium
    else .Low
  { isFraudulent := 0 < triggeredRules.length,
    severity := severity,
    triggeredRules := triggeredRules }

end FraudService

/-!
## Theorems

### Levenshtein distance: the recurrence
-/

theorem levRec_nil (ys : Str) : levRec [] ys = ys.length := by
  simp [levRec]

theorem levRec_cons_nil (x : Char) (xs : Str) : levRec (x :: xs) [] = xs.length + 1 := by
  simp [levRec]

theorem levRec_nil_right (xs : Str) : levRec xs [] = xs.length := by
  cases xs with
  | nil => simp [levRec]
  | cons x xs => simp [levRec]

theorem levRec_cons_cons (x y : Char) (xs ys : Str) :
    levRec (x :: xs) (y :: ys) =
      if x = y then levRec xs ys
      else 1 + Nat.min (levRec xs ys)
        (Nat.min (levRec (x :: xs) ys) (levRec xs (y :: ys))) := by
  rw [levRec]

/-- A minimum of two naturals is one of them. -/
theorem natMin_choice (a b : Nat) : Nat.min a b = a ∨ Nat.min a b = b := by
  by_cases h : a ≤ b
  · exact Or.inl (Nat.min_eq_left h)
  · exact Or.inr (Nat.min_eq_right (Nat.le_of_not_le h))

/-- Commutativity of `Nat.min`, stated on `Nat.min` itself. -/
theorem natMin_comm (a b : Nat) : Nat.min a b = Nat.min b a := by
  by_cases h : a ≤ b
  · exact (Nat.min_eq_left h).trans (Nat.min_eq_right h).symm
  · exact (Nat.min_eq_right (Nat.le_of_not_le h)).trans
      (Nat.min_eq_left (Nat.le_of_not_le h)).symm

/-- Joint one-character bounds: prepending a character to either argument
changes the distance by at most one. -/
theorem levRec_add_one (n : Nat) : ∀ (xs ys : Str), xs.length + ys.length ≤ n →
    (∀ y, levRec xs (y :: ys) ≤ 1 + levRec xs ys) ∧
    (∀ x, levRec xs ys ≤ 1 + levRec (x :: xs) ys) := by
  induction n with
  | zero =>
    intro xs ys h
    obtain rfl : xs = [] := List.length_eq_zero.mp (by omega)
    obtain rfl : ys = [] := List.length_eq_zero.mp (by omega)
    constructor
    · intro y; simp [levRec_nil]
    · intro x; simp [levRec_nil, levRec_cons_nil]
  | succ n ih =>
    intro xs ys h
    constructor
    · intro y
      match xs with
      | [] =>
        simp only [levRec_nil, List.length_cons]
        omega
      | x :: xs' =>
        rw [levRec_cons_cons]
        by_cases hxy : x = y
        · rw [if_pos hxy]
          have hd := (ih xs' ys (by simp at h ⊢; omega)).2 x
          omega
        · rw [if_neg hxy]
          have hm : Nat.min (levRec xs' ys)
              (Nat.min (levRec (x :: xs') ys) (levRec xs' (y :: ys)))
              ≤ levRec (x :: xs') ys :=
            le_trans (Nat.min_le_right _ _) (Nat.min_le_left _ _)
          omega
    · intro x
      match ys with
      | [] =>
        simp only [levRec_nil_right, levRec_cons_nil, List.length_cons]
        omega
      | z :: ys' =>
        rw [levRec_cons_cons]
        by_cases hxz : x = z
        · rw [if_pos hxz]
          have hi := (ih xs ys' (by simp at h ⊢; omega)).1 z
          omega
        · rw [if_neg hxz]
          have hi := (ih xs ys' (by simp at h ⊢; omega)).1 z
          have hd := (ih xs ys' (by simp at h ⊢; omega)).2 x
          rcases natMin_choice (levRec (x :: xs) ys') (levRec xs (z :: ys')) with hm2 | hm2 <;>
            rcases natMin_choice (levRec xs ys')
              (Nat.min (levRec (x :: xs) ys') (levRec xs (z :: ys'))) with hm | hm <;>
            omega

theorem levRec_cons_right_le (xs : Str) (y : Char) (ys : Str) :
    levRec xs (y :: ys) ≤ 1 + levRec xs ys :=
  (levRec_add_one (xs.length + ys.length) xs ys le_rfl).1 y

theorem levRec_le_cons_left (x : Char) (xs ys : Str) :
    levRec xs ys ≤ 1 + levRec (x :: xs) ys :=
  (levRec_add_one (xs.length + ys.length) xs ys le_rfl).2 x

/-- Symmetry of the recurrence. -/
theorem levRec_comm (a b : Str) : levRec a b = levRec b a := by
  have H : ∀ n (a b : Str), a.length + b.length ≤ n → levRec a b = levRec b a := by
    intro n
    induction n with
    | zero =>
      intro a b h
      obtain rfl : a = [] := List.length_eq_zero.mp (by omega)
      obtain rfl : b = [] := List.length_eq_zero.mp (by omega)
      rfl
    | succ n ih =>
      intro a b h
      match a, b with
      | [], b => simp [levRec_nil, levRec_nil_right]
      | a :: as, [] => simp [levRec_nil, levRec_nil_right, levRec_cons_nil]
      | x :: as, y :: bs =>
        rw [levRec_cons_cons, levRec_cons_cons]
        by_cases hxy : x = y
        · rw [if_pos hxy, if_pos hxy.symm]
          exact ih as bs (by simp at h ⊢; omega)
        · rw [if_neg hxy, if_neg (fun hyx => hxy hyx.symm)]
          have h1 := ih as bs (by simp at h ⊢; omega)
          have h2 := ih (x :: as) bs (by simp at h ⊢; omega)
          have h3 := ih as (y :: bs) (by simp at h ⊢; omega)
          rw [h1, h2, h3, natMin_comm (levRec bs (x :: as)) (levRec (y :: bs) as)]
  exact H (a.length + b.length) a b le_rfl

theorem levRec_cons_left_le (x : Char) (xs ys : Str) :
    levRec (x :: xs) ys ≤ 1 + levRec xs ys := by
  rw [levRec_comm (x :: xs) ys, levRec_comm xs ys]
  exact levRec_cons_right_le ys x xs

theorem levRec_le_cons_right (xs : Str) (y : Char) (ys : Str) :
    levRec xs ys ≤ 1 + levRec xs (y :: ys) := by
  rw [levRec_comm xs ys, levRec_comm xs (y :: ys)]
  exact levRec_le_cons_left y ys xs

/-- Lower bound: the distance is at least the length difference. -/
theorem levRec_length_lb (a b : Str) : b.length ≤ a.length + levRec a b := by
  have H : ∀ n (a b : Str), a.length + b.length ≤ n →
      b.length ≤ a.length + levRec a b := by
    intro n
    induction n with
    | zero =>
      intro a b h
      obtain rfl : a = [] := List.length_eq_zero.mp (by omega)
      obtain rfl : b = [] := List.length_eq_zero.mp (by omega)
      simp [levRec_nil]
    | succ n ih =>
      intro a b h
      match a, b with
      | [], b => simp [levRec_nil]
      | a :: as, [] => simp
      | x :: as, y :: bs =>
        rw [levRec_cons_cons]
        by_cases hxy : x = y
        · rw [if_pos hxy]
          have h1 := ih as bs (by simp at h ⊢; omega)
          simp only [List.length_cons]
          omega
        · rw [if_neg hxy]
          have h1 := ih as bs (by simp at h ⊢; omega)
          have h2 := ih (x :: as) bs (by simp at h ⊢; omega)
          have h3 := ih as (y :: bs) (by simp at h ⊢; omega)
          simp only [List.length_cons] at h2 h3 ⊢
          rcases natMin_choice (levRec (x :: as) bs) (levRec as (y :: bs)) with hm2 | hm2 <;>
            rcases natMin_choice (levRec as bs)
              (Nat.min (levRec (x :: as) bs) (levRec as (y :: bs))) with hm | hm <;>
            omega
  exact H (a.length + b.length) a b le_rfl

/-- Upper bound: the distance is at most the sum of the lengths. -/
theorem levRec_le_length_add (a b : Str) : levRec a b ≤ a.length + b.length := by
  have H : ∀ n (a b : Str), a.length + b.length ≤ n →
      levRec a b ≤ a.length + b.length := by
    intro n
    induction n with
    | zero =>
      intro a b h
      obtain rfl : a = [] := List.length_eq_zero.mp (by omega)
      obtain rfl : b = [] := List.length_eq_zero.mp (by omega)
      simp [levRec_nil]
    | succ n ih =>
      intro a b h
      match a, b with
      | [], b => simp [levRec_nil]
      | a :: as, [] => simp [levRec_nil_right, levRec_cons_nil]
      | x :: as, y :: bs =>
        rw [levRec_cons_cons]
        by_cases hxy : x = y
        · rw [if_pos hxy]
          have h1 := ih as bs (by simp at h ⊢; omega)
          simp only [List.length_cons]
          omega
        · rw [if_neg hxy]
          have h1 := ih as bs (by simp at h ⊢; omega)
          have hm : Nat.min (levRec as bs)
              (Nat.min (levRec (x :: as) bs) (levRec as (y :: bs)))
              ≤ levRec as bs := Nat.min_le_left _ _
          simp only [List.length_cons] at h1 ⊢
          omega
  exact H (a.length + b.length) a b le_rfl

/-- Triangle inequality for the recurrence. -/
theorem levRec_triangle (a b c : Str) :
    levRec a c ≤ levRec a b + levRec b c := by
  have H : ∀ n (a b c : Str), a.length + b.length + c.length ≤ n →
      levRec a c ≤ levRec a b + levRec b c := by
    intro n
    induction n with
    | zero =>
      intro a b c h
      obtain rfl : a = [] := List.length_eq_zero.mp (by omega)
      obtain rfl : b = [] := List.length_eq_zero.mp (by omega)
      obtain rfl : c = [] := List.length_eq_zero.mp (by omega)
      simp [levRec_nil]
    | succ n ih =>
      intro a b c h
      match a, b, c with
      | a, [], c =>
        have h1 := levRec_le_length_add a c
        simp only [levRec_nil, levRec_nil_right]
        omega
      | [], y :: bs, c =>
        have h1 := levRec_length_lb (y :: bs) c
        simp only [levRec_nil, List.length_cons] at h1 ⊢
        omega
      | x :: as, y :: bs, [] =>
        have h1 := levRec_length_lb (y :: bs) (x :: as)
        rw [levRec_comm (y :: bs) (x :: as)] at h1
        simp only [levRec_nil_right, List.length_cons] at h1 ⊢
        omega
      | x :: as, y :: bs, z :: cs =>
        have hlen : as.length + bs.length + cs.length + 3 ≤ n + 1 := by
          simp only [List.length_cons] at h; omega
        by_cases hxy : x = y
        · by_cases hyz : y = z
          · have hxz : x = z := hxy.trans hyz
            rw [levRec_cons_cons x y, if_pos hxy, levRec_cons_cons y z, if_pos hyz,
              levRec_cons_cons x z, if_pos hxz]
            exact ih as bs cs (by omega)
          · have hxz : ¬ x = z := fun hh => hyz (hxy.symm.trans hh)
            rw [levRec_cons_cons x y, if_pos hxy, levRec_cons_cons y z, if_neg hyz,
              levRec_cons_cons x z, if_neg hxz]
            have F1 := ih as bs cs (by omega)
            have F2 := ih (x :: as) (y :: bs) cs (by simp; omega)
            have F3 := ih as bs (z :: cs) (by simp; omega)
            rw [levRec_cons_cons x y, if_pos hxy] at F2
            have hA1 : Nat.min (levRec as cs)
                (Nat.min (levRec (x :: as) cs) (levRec as (z :: cs)))
                ≤ levRec as cs := Nat.min_le_left _ _
            have hA2 : Nat.min (levRec as cs)
                (Nat.min (levRec (x :: as) cs) (levRec as (z :: cs)))
                ≤ levRec (x :: as) cs :=
              le_trans (Nat.min_le_right _ _) (Nat.min_le_left _ _)
            have hA3 : Nat.min (levRec as cs)
                (Nat.min (levRec (x :: as) cs) (levRec as (z :: cs)))
                ≤ levRec as (z :: cs) :=
              le_trans (Nat.min_le_right _ _) (Nat.min_le_right _ _)
            rcases natMin_choice (levRec (y :: bs) cs) (levRec bs (z :: cs)) with hm2 | hm2 <;>
              rcases natMin_choice (levRec bs cs)
                (Nat.min (levRec (y :: bs) cs) (levRec bs (z :: cs))) with hm | hm <;>
              omega
        · by_cases hyz : y = z
          · have hxz : ¬ x = z := fun hh => hxy (hh.trans hyz.symm)
            rw [levRec_cons_cons x y, if_neg hxy, levRec_cons_cons y z, if_pos hyz,
              levRec_cons_cons x z, if_neg hxz]
            have F1 := ih as bs cs (by omega)
            have F2 := ih (x :: as) bs cs (by simp; omega)
            have F3 := ih as (y :: bs) (z :: cs) (by simp; omega)
            rw [levRec_cons_cons y z, if_pos hyz] at F3
            have hA1 : Nat.min (levRec as cs)
                (Nat.min (levRec (x :: as) cs) (levRec as (z :: cs)))
                ≤ levRec as cs := Nat.min_le_left _ _
            have hA2 : Nat.min (levRec as cs)
                (Nat.min (levRec (x :: as) cs) (levRec as (z :: cs)))
                ≤ levRec (x :: as) cs :=
              le_trans (Nat.min_le_right _ _) (Nat.min_le_left _ _)
            have hA3 : Nat.min (levRec as cs)
                (Nat.min (levRec (x :: as) cs) (levRec as (z :: cs)))
                ≤ levRec as (z :: cs) :=
              le_trans (Nat.min_le_right _ _) (Nat.min_le_right _ _)
            rcases natMin_choice (levRec (x :: as) bs) (levRec as (y :: bs)) with hm2 | hm2 <;>
              rcases natMin_choice (levRec as bs)
                (Nat.min (levRec (x :: as) bs) (levRec as (y :: bs))) with hm | hm <;>
              omega
          · rw [levRec_cons_cons x y, if_neg hxy, levRec_cons_cons y z, if_neg hyz]
            have F1 := ih as bs cs (by omega)
            have F2 := ih (x :: as) bs cs (by simp; omega)
            have F3 := ih as bs (z :: cs) (by simp; omega)
            have F4 := ih (x :: as) bs (z :: cs) (by simp; omega)
            have F5 := ih (x :: as) (y :: bs) cs (by simp; omega)
            have F6 := ih as (y :: bs) (z :: cs) (by simp; omega)
            rw [levRec_cons_cons x y, if_neg hxy] at F5
            rw [levRec_cons_cons y z, if_neg hyz] at F6
            have G1 := levRec_le_cons_left x as cs
            have G2 := levRec_le_cons_right as z cs
            have G3 := levRec_le_cons_right (x :: as) z cs
            have G4 := levRec_cons_right_le (x :: as) z cs
            have G5 := levRec_cons_left_le x as (z :: cs)
            by_cases hxz : x = z
            · rw [levRec_cons_cons x z, if_pos hxz]
              rcases natMin_choice (levRec (x :: as) bs) (levRec as (y :: bs)) with hp2 | hp2 <;>
                rcases natMin_choice (levRec as bs)
                  (Nat.min (levRec (x :: as) bs) (levRec as (y :: bs))) with hp | hp <;>
                rcases natMin_choice (levRec (y :: bs) cs) (levRec bs (z :: cs)) with hq2 | hq2 <;>
                rcases natMin_choice (levRec bs cs)
                  (Nat.min (levRec (y :: bs) cs) (levRec bs (z :: cs))) with hq | hq <;>
                omega
            · rw [levRec_cons_cons x z, if_neg hxz]
              have hA1 : Nat.min (levRec as cs)
                  (Nat.min (levRec (x :: as) cs) (levRec as (z :: cs)))
                  ≤ levRec as cs := Nat.min_le_left _ _
              have hA2 : Nat.min (levRec as cs)
                  (Nat.min (levRec (x :: as) cs) (levRec as (z :: cs)))
                  ≤ levRec (x :: as) cs :=
                le_trans (Nat.min_le_right _ _) (Nat.min_le_left _ _)
              have hA3 : Nat.min (levRec as cs)
                  (Nat.min (levRec (x :: as) cs) (levRec as (z :: cs)))
                  ≤ levRec as (z :: cs) :=
                le_trans (Nat.min_le_right _ _) (Nat.min_le_right _ _)
              rcases natMin_choice (levRec (x :: as) bs) (levRec as (y :: bs)) with hp2 | hp2 <;>
                rcases natMin_choice (levRec as bs)
                  (Nat.min (levRec (x :: as) bs) (levRec as (y :: bs))) with hp | hp <;>
                rcases natMin_choice (levRec (y :: bs) cs) (levRec bs (z :: cs)) with hq2 | hq2 <;>
                rcases natMin_choice (levRec bs cs)
                  (Nat.min (levRec (y :: bs) cs) (levRec bs (z :: cs))) with hq | hq <;>
                omega
  exact H (a.length + b.length + c.length) a b c le_rfl

/-!
### Levenshtein distance: the row-based implementation computes the
recurrence
-/

theorem natMin3_shift (a b c : Nat) :
    Nat.min (a + 1) (Nat.min (b + 1) (c + 1)) = 1 + Nat.min a (Nat.min c b) := by
  have h1 : Nat.min (b + 1) (c + 1) ≤ b + 1 := Nat.min_le_left _ _
  have h2 : Nat.min (b + 1) (c + 1) ≤ c + 1 := Nat.min_le_right _ _
  have h3 : Nat.min (a + 1) (Nat.min (b + 1) (c + 1)) ≤ a + 1 := Nat.min_le_left _ _
  have h4 : Nat.min (a + 1) (Nat.min (b + 1) (c + 1)) ≤ Nat.min (b + 1) (c + 1) :=
    Nat.min_le_right _ _
  have h5 : Nat.min a (Nat.min c b) ≤ a := Nat.min_le_left _ _
  have h6 : Nat.min a (Nat.min c b) ≤ Nat.min c b := Nat.min_le_right _ _
  have h7 : Nat.min c b ≤ c := Nat.min_le_left _ _
  have h8 : Nat.min c b ≤ b := Nat.min_le_right _ _
  rcases natMin_choice (b + 1) (c + 1) with hm | hm <;>
    rcases natMin_choice (a + 1) (Nat.min (b + 1) (c + 1)) with hn | hn <;>
    rcases natMin_choice c b with ho | ho <;>
    rcases natMin_choice a (Nat.min c b) with hp | hp <;>
    omega

theorem natSeq_getLastD (f : Nat → Nat) :
    ∀ (n s d : Nat), (natSeq f s (n + 1)).getLastD d = f (s + n) := by
  intro n
  induction n with
  | zero => intro s d; simp [natSeq]
  | succ n ih =>
    intro s d
    show (f s :: natSeq f (s + 1) (n + 1)).getLastD d = f (s + (n + 1))
    rw [List.getLastD_cons, ih (s + 1) (f s)]
    congr 1
    omega

theorem natSeq_congr (f g : Nat → Nat) :
    ∀ (n s : Nat), (∀ k, s ≤ k → k < s + n → f k = g k) →
      natSeq f s n = natSeq g s n := by
  intro n
  induction n with
  | zero => intro s _; rfl
  | succ n ih =>
    intro s h
    simp only [natSeq]
    rw [h s le_rfl (by omega), ih (s + 1) (fun k h1 h2 => h k (by omega) (by omega))]

theorem natSeq_range : ∀ (n s : Nat), natSeq (fun j => j) s n = List.range' s n := by
  intro n
  induction n with
  | zero => intro s; rfl
  | succ n ih =>
    intro s
    simp only [natSeq, List.range']
    rw [ih (s + 1)]

theorem take_succ_reverse (l : Str) (j : Nat) (h : j < l.length) :
    (l.take (j + 1)).reverse = l.get ⟨j, h⟩ :: (l.take j).reverse := by
  rw [List.take_succ]
  simp [List.getElem?_eq_getElem h]

theorem natSeq_succ (f : Nat → Nat) (s n : Nat) :
    natSeq f s (n + 1) = f s :: natSeq f (s + 1) n := rfl

theorem natSeq_headD (f : Nat → Nat) (s n d : Nat) :
    (natSeq f s (n + 1)).headD d = f s := rfl

/-- Row invariant of the inner `j` loop: starting from the correct value
of `matrix[i+1][j]` and the previous row from position `j`, `levRowFrom`
produces the new row from position `j`, each entry `matrix[i+1][k]` being
the recurrence value on the reversed prefixes. -/
theorem levRowFrom_invariant (a b : Str) (i : Nat) (hi : i < b.length) :
    ∀ (len j : Nat), j + len = a.length →
      levRowFrom (b.get ⟨i, hi⟩)
        (levRec ((a.take j).reverse) ((b.take (i + 1)).reverse))
        (natSeq (fun k => levRec ((a.take k).reverse) ((b.take i).reverse)) j
          (a.length + 1 - j))
        (a.drop j)
      = natSeq (fun k => levRec ((a.take k).reverse) ((b.take (i + 1)).reverse)) j
          (a.length + 1 - j) := by
  intro len
  induction len with
  | zero =>
    intro j hj
    obtain rfl : j = a.length := by omega
    rw [List.drop_length]
    have h1 : a.length + 1 - a.length = 1 := by omega
    rw [h1]
    simp [levRowFrom, natSeq]
  | succ len ih =>
    intro j hj
    have hja : j < a.length := by omega
    have hd : a.drop j = a.get ⟨j, hja⟩ :: a.drop (j + 1) := List.drop_eq_get_cons hja
    have hlen1 : a.length + 1 - j = (len + 1) + 1 := by omega
    have hlen2 : a.length + 1 - (j + 1) = len + 1 := by omega
    rw [hd, hlen1,
      natSeq_succ (fun k => levRec ((a.take k).reverse) ((b.take i).reverse)) j (len + 1),
      natSeq_succ (fun k => levRec ((a.take k).reverse) ((b.take (i + 1)).reverse)) j (len + 1)]
    rw [levRowFrom]
    have hcur : (if b.get ⟨i, hi⟩ = a.get ⟨j, hja⟩ then
          levRec ((a.take j).reverse) ((b.take i).reverse)
        else
          Nat.min (levRec ((a.take j).reverse) ((b.take i).reverse) + 1)
            (Nat.min (levRec ((a.take j).reverse) ((b.take (i + 1)).reverse) + 1)
              ((natSeq (fun k => levRec ((a.take k).reverse) ((b.take i).reverse))
                  (j + 1) (len + 1)).headD 0 + 1)))
        = levRec ((a.take (j + 1)).reverse) ((b.take (i + 1)).reverse) := by
      rw [natSeq_headD]
      rw [take_succ_reverse a j hja, take_succ_reverse b i hi, levRec_cons_cons]
      by_cases hc : b.get ⟨i, hi⟩ = a.get ⟨j, hja⟩
      · rw [if_pos hc, if_pos hc.symm]
      · rw [if_neg hc, if_neg (fun hh => hc hh.symm)]
        rw [← take_succ_reverse a j hja, ← take_succ_reverse b i hi]
        exact natMin3_shift _ _ _
    rw [hcur]
    congr 1
    have := ih (j + 1) (by omega)
    rw [hlen2] at this
    exact this

/-- Fold invariant of the outer `i` loop: after consuming the first `i`
characters of `b`, the accumulator is row `i` of the matrix. -/
theorem levFold_invariant (a b : Str) :
    ∀ i, i ≤ b.length →
      (b.take i).foldl (fun prev c => levRow c prev a) (List.range (a.length + 1))
      = natSeq (fun k => levRec ((a.take k).reverse) ((b.take i).reverse)) 0
          (a.length + 1) := by
  intro i
  induction i with
  | zero =>
    intro _
    simp only [List.take_zero, List.foldl_nil]
    rw [List.range_eq_range', ← natSeq_range]
    apply natSeq_congr
    intro k _ hk
    simp only [List.take_zero, List.reverse_nil, levRec_nil_right,
      List.length_reverse, List.length_take]
    exact (Nat.min_eq_left (by omega)).symm
  | succ i ih =>
    intro hi
    have hib : i < b.length := by omega
    have ht : b.take (i + 1) = b.take i ++ [b.get ⟨i, hib⟩] := by
      rw [List.take_succ]
      simp [List.getElem?_eq_getElem hib]
    conv_lhs => rw [ht]
    rw [List.foldl_append, ih (by omega)]
    simp only [List.foldl_cons, List.foldl_nil]
    unfold levRow
    rw [natSeq_headD]
    have h0 : levRec ((a.take 0).reverse) ((b.take i).reverse) + 1
        = levRec ((a.take 0).reverse) ((b.take (i + 1)).reverse) := by
      simp only [List.take_zero, List.reverse_nil, levRec_nil]
      rw [List.length_reverse, List.length_reverse, List.length_take, List.length_take,
        Nat.min_eq_left (by omega), Nat.min_eq_left (by omega)]
    rw [h0]
    have hinv := levRowFrom_invariant a b i hib a.length 0 (by omega)
    simp only [List.drop_zero, Nat.sub_zero] at hinv
    exact hinv

/-- The row-based `levenshteinDistance` of the source computes the
defining recurrence (on the reversed strings: the matrix indexes prefixes
while the recurrence consumes from the front). -/
theorem levenshteinDistance_eq (a b : Str) :
    levenshteinDistance a b = levRec a.reverse b.reverse := by
  unfold levenshteinDistance
  by_cases ha : a.length = 0
  · rw [if_pos ha]
    obtain rfl : a = [] := List.length_eq_zero.mp ha
    simp [levRec_nil]
  · rw [if_neg ha]
    by_cases hb : b.length = 0
    · rw [if_pos hb]
      obtain rfl : b = [] := List.length_eq_zero.mp hb
      simp [levRec_nil_right]
    · rw [if_neg hb]
      have hfold := levFold_invariant a b b.length le_rfl
      rw [List.take_length] at hfold
      rw [hfold, natSeq_getLastD]
      simp only [Nat.zero_add]
      rw [List.take_length]

/-- C7: `PhishingService.levenshteinDistance` is the classic unit-cost
Levenshtein edit distance: the distance to the empty string is the
length, the function is symmetric, and the triangle inequality holds.
(The result is a `Nat`, hence a non-negative integer by construction.) -/
theorem levenshteinDistance_metric (a b c : Str) :
    levenshteinDistance a [] = a.length
    ∧ levenshteinDistance a b = levenshteinDistance b a
    ∧ levenshteinDistance a c ≤ levenshteinDistance a b + levenshteinDistance b c := by
  refine ⟨?_, ?_, ?_⟩
  · rw [levenshteinDistance_eq]
    simp [levRec_nil_right]
  · rw [levenshteinDistance_eq, levenshteinDistance_eq, levRec_comm]
  · rw [levenshteinDistance_eq, levenshteinDistance_eq, levenshteinDistance_eq]
    exact levRec_triangle a.reverse b.reverse c.reverse

/-!
### The aggregator
-/

theorem mem_optCons {α} {x y : α} {b : Bool} {xs : List α}
    (h : x ∈ optCons b y xs) : (b = true ∧ x = y) ∨ x ∈ xs := by
  unfold optCons at h
  split at h
  · rcases List.mem_cons.mp h with h1 | h1
    · exact Or.inl ⟨by assumption, h1⟩
    · exact Or.inr h1
  · exact Or.inr h

theorem optCons_map {α β} (f : α → β) (b : Bool) (x : α) (xs : List α) :
    (optCons b x xs).map f = optCons b (f x) (xs.map f) := by
  unfold optCons
  split <;> simp

theorem optCons_sublist {α} {xs l : List α} (b : Bool) (x : α) (h : List.Sublist xs l) :
    List.Sublist (optCons b x xs) (x :: l) := by
  unfold optCons
  split
  · exact h.cons₂ x
  · exact h.cons x

theorem generateDemoResult_indicators (content sender subject : Str) (rand : Fin 15) :
    (PhishingService.generateDemoResult content sender subject rand).indicators
      = PhishingService.indicatorsOf content sender subject := rfl

theorem generateDemoResult_success (content sender subject : Str) (rand : Fin 15) :
    (PhishingService.generateDemoResult content sender subject rand).success = true := rfl

theorem generateDemoResult_score (content sender subject : Str) (rand : Fin 15) :
    (PhishingService.generateDemoResult content sender subject rand).phishingScore
      = if (PhishingService.indicatorsOf content sender subject).isEmpty then rand.val + 1
        else Nat.min (PhishingService.preCapScore content sender subject) 100 := rfl

/-- C1: on the local heuristic path the returned score is an integer
between 0 and 100 inclusive: the accumulated total is capped at 100 by
`Math.min`, and the empty-indicator override `rand + 1` lies in `[1, 15]`;
no branch produces a value above 100 or below 0. -/
theorem phishing_score_in_range (content sender subject : Str) (rand : Fin 15) :
    0 ≤ (PhishingService.generateDemoResult content sender subject rand).phishingScore
    ∧ (PhishingService.generateDemoResult content sender subject rand).phishingScore ≤ 100 := by
  refine ⟨Nat.zero_le _, ?_⟩
  rw [generateDemoResult_score]
  split
  · have := rand.isLt
    omega
  · exact le_trans (Nat.min_le_right _ _) le_rfl

/-- C9: the indicator list contains at most one indicator per category and
the categories appear in the fixed evaluation order (domain, links,
mismatched URLs, urgency, sensitive info, attachments, impersonation,
grammar): the list of types is a duplicate-free sublist of the canonical
order. -/
theorem indicators_ordered_nodup (content sender subject : Str) (rand : Fin 15) :
    List.Sublist
      ((PhishingService.generateDemoResult content sender subject rand).indicators.map
        Indicator.type)
      [PhishingIndicatorType.SpoofedDomain, PhishingIndicatorType.SuspiciousLink,
       PhishingIndicatorType.MismatchedURLs, PhishingIndicatorType.UrgencyOrPressure,
       PhishingIndicatorType.SensitiveInfoRequest, PhishingIndicatorType.SuspiciousAttachment,
       PhishingIndicatorType.ImpersonationAttempt, PhishingIndicatorType.GrammarErrors]
    ∧ ((PhishingService.generateDemoResult content sender subject rand).indicators.map
        Indicator.type).Nodup := by
  have hsub : List.Sublist
      ((PhishingService.generateDemoResult content sender subject rand).indicators.map
        Indicator.type)
      [PhishingIndicatorType.SpoofedDomain, PhishingIndicatorType.SuspiciousLink,
       PhishingIndicatorType.MismatchedURLs, PhishingIndicatorType.UrgencyOrPressure,
       PhishingIndicatorType.SensitiveInfoRequest, PhishingIndicatorType.SuspiciousAttachment,
       PhishingIndicatorType.ImpersonationAttempt, PhishingIndicatorType.GrammarErrors] := by
    rw [generateDemoResult_indicators]
    unfold PhishingService.indicatorsOf
    simp only [optCons_map, List.map_nil]
    exact optCons_sublist _ _ (optCons_sublist _ _ (optCons_sublist _ _ (optCons_sublist _ _
      (optCons_sublist _ _ (optCons_sublist _ _ (optCons_sublist _ _ (optCons_sublist _ _
        (List.nil_sublist []))))))))
  exact ⟨hsub, hsub.nodup (by decide)⟩

theorem splitChar_of_not_contains (c : Char) :
    ∀ (s : Str), containsChar c s = false → splitChar c s = [s] := by
  intro s
  induction s with
  | nil => intro _; rfl
  | cons d ds ih =>
    intro h
    simp only [containsChar, List.any_cons, Bool.or_eq_false_iff] at h
    unfold splitChar
    rw [if_neg (by simp [h.1])]
    rw [ih (by simp [containsChar, h.2])]

/-- C8: a sender without `@` yields the empty domain, the domain analyzer
is a no-op (guard clause), the call still succeeds, and no spoofed-domain
indicator is emitted; the remaining analyzers run as usual. -/
theorem no_at_sender_is_harmless (content sender subject : Str) (rand : Fin 15)
    (h : containsChar '@' sender = false) :
    PhishingService.domainOf sender = []
    ∧ (PhishingService.analyzeDomainAndSender sender
        (PhishingService.domainOf sender)).isSuspicious = false
    ∧ (PhishingService.generateDemoResult content sender subject rand).success = true
    ∧ ∀ ind ∈ (PhishingService.generateDemoResult content sender subject rand).indicators,
        ind.type ≠ PhishingIndicatorType.SpoofedDomain := by
  have hdom : PhishingService.domainOf sender = [] := by
    unfold PhishingService.domainOf
    rw [splitChar_of_not_contains '@' sender h]
    rfl
  have hflag : (PhishingService.analyzeDomainAndSender sender
      (PhishingService.domainOf sender)).isSuspicious = false := by
    rw [hdom]
    rfl
  refine ⟨hdom, hflag, rfl, ?_⟩
  intro ind hind
  rw [generateDemoResult_indicators] at hind
  unfold PhishingService.indicatorsOf at hind
  rcases mem_optCons hind with ⟨hb, rfl⟩ | hind
  · rw [hflag] at hb
    cases hb
  · rcases mem_optCons hind with ⟨_, rfl⟩ | hind
    · exact fun hh => nomatch hh
    rcases mem_optCons hind with ⟨_, rfl⟩ | hind
    · exact fun hh => nomatch hh
    rcases mem_optCons hind with ⟨_, rfl⟩ | hind
    · exact fun hh => nomatch hh
    rcases mem_optCons hind with ⟨_, rfl⟩ | hind
    · exact fun hh => nomatch hh
    rcases mem_optCons hind with ⟨_, rfl⟩ | hind
    · exact fun hh => nomatch hh
    rcases mem_optCons hind with ⟨_, rfl⟩ | hind
    · exact fun hh => nomatch hh
    rcases mem_optCons hind with ⟨_, rfl⟩ | hind
    · exact fun hh => nomatch hh
    cases hind

/-- Witness for C8 at a concrete sender without `@`. -/
theorem no_at_sender_is_harmless_witness :
    PhishingService.domainOf "alice.example.com".data = []
    ∧ (PhishingService.analyzeDomainAndSender "alice.example.com".data
        (PhishingService.domainOf "alice.example.com".data)).isSuspicious = false
    ∧ (PhishingService.generateDemoResult "hello there".data "alice.example.com".data
        "greetings".data (0 : Fin 15)).success = true
    ∧ ∀ ind ∈ (PhishingService.generateDemoResult "hello there".data
        "alice.example.com".data "greetings".data (0 : Fin 15)).indicators,
        ind.type ≠ PhishingIndicatorType.SpoofedDomain :=
  no_at_sender_is_harmless "hello there".data "alice.example.com".data "greetings".data
    (0 : Fin 15) (by decide)

/-- C2 (amended): on the `storage.ts` implementation, whenever no analyzer
fires the returned score is `rand + 1` for the random draw
`rand ∈ [0, 15)`, hence an integer in `[1, 15]` and never 0, for every
possible value of the draw. -/
theorem storage_no_indicator_score_range (content sender subject : Str) (rand : Fin 15)
    (h : (PhishingService.generateDemoResult content sender subject rand).indicators = []) :
    1 ≤ (PhishingService.generateDemoResult content sender subject rand).phishingScore
    ∧ (PhishingService.generateDemoResult content sender subject rand).phishingScore ≤ 15 := by
  rw [generateDemoResult_indicators] at h
  rw [generateDemoResult_score, h]
  have := rand.isLt
  simp only [List.isEmpty_nil, if_true]
  omega

/-- Witness for the amended C2 on a benign email. -/
theorem storage_no_indicator_score_range_witness :
    1 ≤ (PhishingService.generateDemoResult "hi".data "a@b.com".data "x".data
        (0 : Fin 15)).phishingScore
    ∧ (PhishingService.generateDemoResult "hi".data "a@b.com".data "x".data
        (0 : Fin 15)).phishingScore ≤ 15 :=
  storage_no_indicator_score_range "hi".data "a@b.com".data "x".data (0 : Fin 15) (by decide)

/-- Counterexample to C2 as stated: the duplicate implementation in
`server/services/phishingService.ts` (the one imported by the routes)
assigns `Math.floor(Math.random() * 20) + 5` on the empty-indicator path,
so at draw 19 a benign email receives score 24, outside `[1, 15]`. -/
theorem legacy_no_indicator_score_exceeds_15 :
    (PhishingServiceLegacy.generateDemoResult "hi".data "a@b.com".data "x".data false
        (19 : Fin 20)).indicators = []
    ∧ (PhishingServiceLegacy.generateDemoResult "hi".data "a@b.com".data "x".data false
        (19 : Fin 20)).phishingScore = 24
    ∧ ¬((PhishingServiceLegacy.generateDemoResult "hi".data "a@b.com".data "x".data false
        (19 : Fin 20)).phishingScore ≤ 15) := by
  refine ⟨by decide, by decide, by decide⟩

/-- C5: if both the urgency analyzer and the sensitive-information
analyzer fire, the pre-cap aggregate score is at least the sum of their
two individual contributions plus the flat +15 cross-indicator bonus
applied after all analyzers have run. -/
theorem cross_bonus_lower_bound (content sender subject : Str)
    (hu : (PhishingService.analyzeUrgencyAndPressure (lower content)
        (lower subject)).hasUrgencyTactics = true)
    (hs : (PhishingService.analyzeSensitiveInfoRequests
        (lower content)).requestsSensitiveInfo = true) :
    (PhishingService.analyzeUrgencyAndPressure (lower content) (lower subject)).scoreContribution
      + (PhishingService.analyzeSensitiveInfoRequests (lower content)).scoreContribution
      + 15
    ≤ PhishingService.preCapScore content sender subject := by
  unfold PhishingService.preCapScore PhishingService.baseScore
  simp only
  rw [if_pos hu, if_pos hs, hu, hs]
  simp only [Bool.and_self, if_true]
  omega

/-- Witness for C5 on an email triggering both analyzers. -/
theorem cross_bonus_lower_bound_witness :
    (PhishingService.analyzeUrgencyAndPressure
        (lower "account suspended, enter your ssn".data) (lower "hi".data)).hasUrgencyTactics = true
    ∧ (PhishingService.analyzeSensitiveInfoRequests
        (lower "account suspended, enter your ssn".data)).requestsSensitiveInfo = true
    ∧ (PhishingService.analyzeUrgencyAndPressure
          (lower "account suspended, enter your ssn".data) (lower "hi".data)).scoreContribution
        + (PhishingService.analyzeSensitiveInfoRequests
          (lower "account suspended, enter your ssn".data)).scoreContribution
        + 15
      ≤ PhishingService.preCapScore "account suspended, enter your ssn".data
          "x@a.com".data "hi".data :=
  ⟨by decide, by decide,
    cross_bonus_lower_bound "account suspended, enter your ssn".data "x@a.com".data
      "hi".data (by decide) (by decide)⟩

/-!
### The domain analyzer: typosquatting and homoglyph rules (C6, C10)
-/

theorem firstSome_of_pre_none {β} :
    ∀ (l1 : List (Option β)) (o : Option β) (l2 : List (Option β)),
      (∀ p ∈ l1, p = none) → firstSome (l1 ++ o :: l2) = (o <|> firstSome l2) := by
  intro l1
  induction l1 with
  | nil => intro o l2 _; rfl
  | cons p ps ih =>
    intro o l2 h
    have hp : p = none := h p (List.mem_cons_self p ps)
    show (p <|> firstSome (ps ++ o :: l2)) = (o <|> firstSome l2)
    rw [hp, ih o l2 (fun q hq => h q (List.mem_cons_of_mem p hq))]
    rfl

/-- C6 (amended): if the brand loop reaches brand `b` with no sub-rule of
any earlier brand having fired, `b`'s own brand-substring block does not
fire, the domain differs from `<b>.com`, is longer than 5, contains a
digit and is within edit distance 2 of `<b>.com`, then the analyzer flags
a spoofed domain with confidence 93 and contribution 38. -/
theorem digit_typosquat_confidence (sender d : Str) (pre : List Str) (b : Str)
    (rest : List Str)
    (hsplit : PhishingService.commonDomainsToSpoof = pre ++ b :: rest)
    (hpre : ∀ p ∈ pre, PhishingService.brandCheck d p = none)
    (hname : PhishingService.brandNameCheck d b = none)
    (hne : d ≠ b ++ ".com".data)
    (hlen : 5 < d.length)
    (hdig : hasDigit d = true)
    (hlev : levenshteinDistance d (b ++ ".com".data) ≤ 2) :
    PhishingService.analyzeDomainAndSender sender d =
      { isSuspicious := true,
        description := "The sender domain \"".data ++ d
          ++ "\" appears to be a typosquat of \"".data ++ b
          ++ ".com\" using number substitution".data,
        confidence := 93, scoreContribution := 38 } := by
  have hde : d.isEmpty = false := by
    cases d with
    | nil => simp at hlen
    | cons c cs => rfl
  have htypo : PhishingService.brandTypoCheck d b =
      some { isSuspicious := true,
             description := "The sender domain \"".data ++ d
               ++ "\" appears to be a typosquat of \"".data ++ b
               ++ ".com\" using number substitution".data,
             confidence := 93, scoreContribution := 38 } := by
    unfold PhishingService.brandTypoCheck
    rw [if_pos ⟨hne, hlen⟩, if_pos]
    rw [hdig, decide_eq_true hlev]
    rfl
  unfold PhishingService.analyzeDomainAndSender
  rw [hde]
  simp only [Bool.false_eq_true, if_false]
  rw [hsplit, List.map_append, List.map_cons]
  rw [firstSome_of_pre_none (pre.map (PhishingService.brandCheck d))
      (PhishingService.brandCheck d b) (rest.map (PhishingService.brandCheck d))
      (by intro p hp
          rcases List.mem_map.mp hp with ⟨q, hq, rfl⟩
          exact hpre q hq)]
  unfold PhishingService.brandCheck
  rw [hname, htypo]
  rfl

/-- Witness for the amended C6: `paypa1.com` is flagged with confidence 93
(the typosquat of the first brand, `paypal`). -/
theorem digit_typosquat_confidence_witness :
    PhishingService.analyzeDomainAndSender "x@paypa1.com".data "paypa1.com".data =
      { isSuspicious := true,
        description := "The sender domain \"".data ++ "paypa1.com".data
          ++ "\" appears to be a typosquat of \"".data ++ "paypal".data
          ++ ".com\" using number substitution".data,
        confidence := 93, scoreContribution := 38 } :=
  digit_typosquat_confidence "x@paypa1.com".data "paypa1.com".data []
    "paypal".data (PhishingService.commonDomainsToSpoof.drop 1)
    (by decide) (by intro p hp; cases hp) (by decide) (by decide) (by decide)
    (by decide) (by decide)

/-- Counterexample to C6 as stated: `amaz0on.com` satisfies every listed
hypothesis for the brand `amazon` (distinct from `amazon.com`, longer
than 5, contains a digit, edit distance 1 from `amazon.com`, and no
brand-substring hyphen/subdomain rule fires for any brand), yet the
analyzer returns confidence 86, not 93: the homoglyph sub-rule of the
earlier brand `paypal` fires first on the `0o` pair in the label. -/
theorem digit_typosquat_preempted_by_homoglyph :
    "amazon".data ∈ PhishingService.commonDomainsToSpoof
    ∧ "amaz0on.com".data ≠ "amazon".data ++ ".com".data
    ∧ 5 < "amaz0on.com".data.length
    ∧ hasDigit "amaz0on.com".data = true
    ∧ levenshteinDistance "amaz0on.com".data ("amazon".data ++ ".com".data) ≤ 2
    ∧ (∀ p ∈ PhishingService.commonDomainsToSpoof,
        PhishingService.brandNameCheck "amaz0on.com".data p = none)
    ∧ (PhishingService.analyzeDomainAndSender "s@amaz0on.com".data
        "amaz0on.com".data).confidence = 86
    ∧ (PhishingService.analyzeDomainAndSender "s@amaz0on.com".data
        "amaz0on.com".data).confidence ≠ 93 := by
  refine ⟨by decide, by decide, by decide, by decide, by decide, by decide, ?_, ?_⟩
  · decide
  · decide

/-- C10: any domain reaching the homoglyph sub-rule of the first brand
(`paypal`) whose first dot-separated label contains one of the pairs
`rn`, `vv`, `l1`, `0o` is flagged as a spoofed domain with confidence 86
and contribution 33, with a description claiming it mimics `paypal.com`
-- whether or not the domain resembles any brand. -/
theorem homoglyph_flag (sender d : Str)
    (hname : PhishingService.brandNameCheck d "paypal".data = none)
    (hne : d ≠ "paypal".data ++ ".com".data)
    (hlen : 5 < d.length)
    (hnodig : ¬(hasDigit d = true
        ∧ levenshteinDistance d ("paypal".data ++ ".com".data) ≤ 2))
    (hne1 : levenshteinDistance d ("paypal".data ++ ".com".data) ≠ 1)
    (hhomo : (containsSub ((splitChar '.' d).headD []) "rn".data
        || containsSub ((splitChar '.' d).headD []) "vv".data
        || containsSub ((splitChar '.' d).headD []) "l1".data
        || containsSub ((splitChar '.' d).headD []) "0o".data) = true) :
    PhishingService.analyzeDomainAndSender sender d =
      { isSuspicious := true,
        description := "The sender domain \"".data ++ d
          ++ "\" appears to use visually similar characters to mimic \"".data
          ++ "paypal".data ++ ".com\"".data,
        confidence := 86, scoreContribution := 33 } := by
  have hde : d.isEmpty = false := by
    cases d with
    | nil => simp at hlen
    | cons c cs => rfl
  have hdigit : (hasDigit d
      && decide (levenshteinDistance d ("paypal".data ++ ".com".data) ≤ 2)) = false := by
    rw [Bool.and_eq_false_iff]
    by_cases hd : hasDigit d = true
    · right
      rw [decide_eq_false_iff_not]
      exact fun hh => hnodig ⟨hd, hh⟩
    · left
      exact Bool.not_eq_true _ ▸ (by simpa using hd)
  have htypo : PhishingService.brandTypoCheck d "paypal".data =
      some { isSuspicious := true,
             description := "The sender domain \"".data ++ d
               ++ "\" appears to use visually similar characters to mimic \"".data
               ++ "paypal".data ++ ".com\"".data,
             confidence := 86, scoreContribution := 33 } := by
    unfold PhishingService.brandTypoCheck
    rw [if_pos ⟨hne, hlen⟩, hdigit]
    simp only [Bool.false_eq_true, if_false]
    rw [if_neg hne1]
    simp only [hhomo]
    rfl
  unfold PhishingService.analyzeDomainAndSender
  rw [hde]
  simp only [Bool.false_eq_true, if_false]
  have hsplit : PhishingService.commonDomainsToSpoof
      = [] ++ "paypal".data :: PhishingService.commonDomainsToSpoof.drop 1 := rfl
  rw [hsplit, List.map_append, List.map_cons]
  rw [firstSome_of_pre_none (([] : List Str).map (PhishingService.brandCheck d))
      (PhishingService.brandCheck d "paypal".data)
      ((PhishingService.commonDomainsToSpoof.drop 1).map (PhishingService.brandCheck d))
      (by intro p hp; exact absurd hp (List.not_mem_nil p))]
  unfold PhishingService.brandCheck
  rw [hname, htypo]
  rfl

/-- Witness for C10: `modernfurniture.com` (no resemblance to any brand,
`rn` inside `modernfurniture`) is flagged as mimicking `paypal.com` with
confidence 86 and contribution 33. -/
theorem homoglyph_flag_witness :
    PhishingService.analyzeDomainAndSender "s@modernfurniture.com".data
        "modernfurniture.com".data =
      { isSuspicious := true,
        description := "The sender domain \"".data ++ "modernfurniture.com".data
          ++ "\" appears to use visually similar characters to mimic \"".data
          ++ "paypal".data ++ ".com\"".data,
        confidence := 86, scoreContribution := 33 } :=
  homoglyph_flag "s@modernfurniture.com".data "modernfurniture.com".data
    (by decide) (by decide) (by decide) (by decide) (by decide) (by decide)

/-!
### The fraud rule engine (C3, C4)
-/

namespace FraudService

theorem findIdxBy_some :
    ∀ (rules : List FraudRule) (i : Str) (ix : Nat), findIdxBy rules i = some ix →
      ∃ r, rules.get? ix = some r ∧ r.id = i := by
  intro rules
  induction rules with
  | nil => intro i ix h; cases h
  | cons r rs ih =>
    intro i ix h
    unfold findIdxBy at h
    split at h
    · cases h
      exact ⟨r, rfl, by assumption⟩
    · rcases Option.map_eq_some'.mp h with ⟨ix', hix, rfl⟩
      rcases ih i ix' hix with ⟨r', hr', hid⟩
      exact ⟨r', hr', hid⟩

theorem findIdxBy_none :
    ∀ (rules : List FraudRule) (i : Str), (∀ r ∈ rules, r.id ≠ i) →
      findIdxBy rules i = none := by
  intro rules
  induction rules with
  | nil => intro i _; rfl
  | cons r rs ih =>
    intro i h
    unfold findIdxBy
    rw [if_neg (h r (List.mem_cons_self r rs))]
    rw [ih i (fun q hq => h q (List.mem_cons_of_mem r hq))]
    rfl

theorem set_self_of_get? {α} :
    ∀ (l : List α) (i : Nat) (a : α), l.get? i = some a → l.set i a = l := by
  intro l
  induction l with
  | nil => intro i a h; cases h
  | cons x xs ih =>
    intro i a h
    cases i with
    | zero =>
      cases h
      rfl
    | succ i =>
      simp only [List.get?_cons_succ] at h
      simp only [List.set_cons_succ, ih i a h]

theorem updateRule_map_id (rules : List FraudRule) (cfg : RuleConfig) :
    (updateRule rules cfg).map FraudRule.id = rules.map FraudRule.id := by
  unfold updateRule
  split
  · rfl
  case h_2 i hfind =>
    split
    · rfl
    case h_2 old hold =>
      rcases findIdxBy_some rules cfg.id i hfind with ⟨r, hr, hid⟩
      rw [hr] at hold
      cases hold
      rw [List.map_set]
      exact set_self_of_get? _ i _ (by rw [List.get?_map, hr]; simp [hid])

theorem updateRule_map_check (rules : List FraudRule) (cfg : RuleConfig) :
    (updateRule rules cfg).map FraudRule.check = rules.map FraudRule.check := by
  unfold updateRule
  split
  · rfl
  case h_2 i hfind =>
    split
    · rfl
    case h_2 old hold =>
      rw [List.map_set]
      exact set_self_of_get? _ i _ (by rw [List.get?_map, hold]; rfl)

theorem updateRule_unknown (rules : List FraudRule) (cfg : RuleConfig)
    (h : ∀ r ∈ rules, r.id ≠ cfg.id) : updateRule rules cfg = rules := by
  unfold updateRule
  rw [findIdxBy_none rules cfg.id h]

end FraudService

/-- C3 (amended): `updateRules` preserves the rule table's length, its
sequence of ids and its sequence of `check` predicates (the predicate is
re-attached from the stored rule, never taken from caller input), and
silently ignores configurations whose id matches no existing rule; the
caller-supplied `name`, `description`, `enabled` and `threshold` of a
matched rule all replace the stored values. -/
theorem updateRules_preserves_ids_checks (rules : List FraudService.FraudRule)
    (cfgs : List FraudService.RuleConfig) :
    (FraudService.updateRules rules cfgs).map FraudService.FraudRule.id
        = rules.map FraudService.FraudRule.id
    ∧ (FraudService.updateRules rules cfgs).map FraudService.FraudRule.check
        = rules.map FraudService.FraudRule.check
    ∧ (FraudService.updateRules rules cfgs).length = rules.length
    ∧ ((∀ cfg ∈ cfgs, ∀ r ∈ rules, r.id ≠ cfg.id) →
        FraudService.updateRules rules cfgs = rules) := by
  have hids : ∀ (cfgs : List FraudService.RuleConfig) (rules : List FraudService.FraudRule),
      (FraudService.updateRules rules cfgs).map FraudService.FraudRule.id
        = rules.map FraudService.FraudRule.id := by
    intro cfgs
    induction cfgs with
    | nil => intro rules; rfl
    | cons c cs ih =>
      intro rules
      show (FraudService.updateRules (FraudService.updateRule rules c) cs).map _ = _
      rw [ih (FraudService.updateRule rules c), FraudService.updateRule_map_id]
  have hchecks : ∀ (cfgs : List FraudService.RuleConfig) (rules : List FraudService.FraudRule),
      (FraudService.updateRules rules cfgs).map FraudService.FraudRule.check
        = rules.map FraudService.FraudRule.check := by
    intro cfgs
    induction cfgs with
    | nil => intro rules; rfl
    | cons c cs ih =>
      intro rules
      show (FraudService.updateRules (FraudService.updateRule rules c) cs).map _ = _
      rw [ih (FraudService.updateRule rules c), FraudService.updateRule_map_check]
  have hunk : ∀ (cfgs : List FraudService.RuleConfig) (rules : List FraudService.FraudRule),
      (∀ cfg ∈ cfgs, ∀ r ∈ rules, r.id ≠ cfg.id) →
      FraudService.updateRules rules cfgs = rules := by
    intro cfgs
    induction cfgs with
    | nil => intro rules _; rfl
    | cons c cs ih =>
      intro rules h
      show FraudService.updateRules (FraudService.updateRule rules c) cs = rules
      rw [FraudService.updateRule_unknown rules c
        (h c (List.mem_cons_self c cs))]
      exact ih rules (fun cfg hcfg => h cfg (List.mem_cons_of_mem c hcfg))
  refine ⟨hids cfgs rules, hchecks cfgs rules, ?_, hunk cfgs rules⟩
  have := congrArg List.length (hids cfgs rules)
  simpa using this

/-- Witness for the amended C3: an unknown-id configuration leaves the
default table untouched, and checks/ids survive an update that matches. -/
theorem updateRules_preserves_ids_checks_witness :
    FraudService.updateRules FraudService.defaultRules
        [{ id := "no-such-rule".data, name := "n".data, description := "d".data,
           enabled := true, threshold := none }]
      = FraudService.defaultRules
    ∧ (FraudService.updateRules FraudService.defaultRules
        [{ id := "multiple-attempts".data, name := "n".data, description := "d".data,
           enabled := false, threshold := some 10 }]).map FraudService.FraudRule.check
      = FraudService.defaultRules.map FraudService.FraudRule.check :=
  ⟨(updateRules_preserves_ids_checks FraudService.defaultRules
      [{ id := "no-such-rule".data, name := "n".data, description := "d".data,
         enabled := true, threshold := none }]).2.2.2 (by decide),
   (updateRules_preserves_ids_checks FraudService.defaultRules
      [{ id := "multiple-attempts".data, name := "n".data, description := "d".data,
         enabled := false, threshold := some 10 }]).2.1⟩

/-- Counterexample to C3 as stated: `updateRules` spreads the whole
caller-supplied configuration over a matched rule, so the `name` (and
`description`) of a matched rule are replaced, not preserved; only the
`check` binding is re-attached. -/
theorem updateRules_replaces_name :
    ((FraudService.updateRules FraudService.defaultRules
        [{ id := "ip-anomaly".data, name := "x".data, description := "y".data,
           enabled := true, threshold := none }]).get? 1).map FraudService.FraudRule.name
      = some "x".data
    ∧ ((FraudService.defaultRules.get? 1).map FraudService.FraudRule.name
      = some "IP Address Anomaly".data)
    ∧ "x".data ≠ "IP Address Anomaly".data := by
  refine ⟨by decide, by decide, by decide⟩

theorem detectFraud_foldl_push (p : FraudService.FraudRule → Bool) :
    ∀ (l : List FraudService.FraudRule) (acc : List Str),
      l.foldl (fun acc r => if p r then acc ++ [r.id] else acc) acc
        = acc ++ (l.filter p).map FraudService.FraudRule.id := by
  intro l
  induction l with
  | nil => intro acc; simp
  | cons r rs ih =>
    intro acc
    simp only [List.foldl_cons, List.filter_cons]
    by_cases hp : p r
    · rw [if_pos hp, if_pos hp, ih, List.map_cons]
      simp
    · rw [if_neg hp, if_neg hp, ih]

/-- C4 (amended): `detectFraud` flags iff at least one enabled rule's
predicate matches; the triggered ids are those of the matching rules in
table order; severity is High for more than 2 matches, Medium for 1-2,
and Low is returned (together with `isFraudulent = false`) when no rule
matches -- the live path does return the `Low` value in that case. -/
theorem detectFraud_characterization (rules : List FraudService.FraudRule)
    (d : FraudService.EventData) :
    (FraudService.detectFraud rules d).triggeredRules
        = (rules.filter (fun r => r.enabled && FraudService.evalCheck rules r.check d)).map
            FraudService.FraudRule.id
    ∧ ((FraudService.detectFraud rules d).isFraudulent = true
        ↔ ∃ r ∈ rules, r.enabled = true ∧ FraudService.evalCheck rules r.check d = true)
    ∧ (FraudService.detectFraud rules d).severity
        = (if 2 < ((rules.filter (fun r => r.enabled
              && FraudService.evalCheck rules r.check d)).map
                FraudService.FraudRule.id).length
           then Severity.High
           else if 0 < ((rules.filter (fun r => r.enabled
              && FraudService.evalCheck rules r.check d)).map
                FraudService.FraudRule.id).length
           then Severity.Medium else Severity.Low) := by
  have htrig : (FraudService.detectFraud rules d).triggeredRules
      = (rules.filter (fun r => r.enabled && FraudService.evalCheck rules r.check d)).map
          FraudService.FraudRule.id := by
    unfold FraudService.detectFraud
    simp only
    rw [detectFraud_foldl_push]
    rfl
  refine ⟨htrig, ?_, ?_⟩
  · unfold FraudService.detectFraud
    simp only
    rw [detectFraud_foldl_push]
    simp only [List.nil_append, decide_eq_true_eq, List.length_map]
    rw [List.length_pos]
    constructor
    · intro hne
      rcases List.exists_mem_of_ne_nil _ hne with ⟨r, hr⟩
      rcases List.mem_filter.mp hr with ⟨hmem, hp⟩
      simp only [Bool.and_eq_true] at hp
      exact ⟨r, hmem, hp.1, hp.2⟩
    · rintro ⟨r, hmem, h1, h2⟩
      intro hnil
      have : r ∈ (rules.filter fun r =>
          r.enabled && FraudService.evalCheck rules r.check d) :=
        List.mem_filter.mpr ⟨hmem, by rw [h1, h2]; rfl⟩
      rw [hnil] at this
      exact absurd this (List.not_mem_nil r)
  · unfold FraudService.detectFraud
    simp only
    rw [detectFraud_foldl_push]
    rfl

/-- Counterexample to C4 as stated: when no rule triggers, the live
aggregation path does return `severity = Low` (with
`isFraudulent = false`), so `Low` is computed and returned by this path. -/
theorem detectFraud_returns_low_severity :
    (FraudService.detectFraud FraudService.defaultRules {}).isFraudulent = false
    ∧ (FraudService.detectFraud FraudService.defaultRules {}).severity = Severity.Low
    ∧ (FraudService.detectFraud FraudService.defaultRules {}).triggeredRules = [] := by
  refine ⟨by decide, by decide, by decide⟩

end FraudShield
